import Mathlib

set_option maxHeartbeats 1000000

/-!
Shallow embedding of the carousel widget in `src/carousel.ts` and a verification
of its stated properties.

The widget is a factory (`JSCarousel`) closing over one mutable slide index and
references to DOM elements.  The embedding represents that closure state as an
explicit `State` record: each slide's inline `translateX` percentage, the
pagination buttons (class/attribute flags plus the identity of their registered
click closures), the listener registrations of the container and of the
previous/next buttons, and the repeating-timer bookkeeping of `setInterval` /
`clearInterval`.  Every function of the source file is translated one-for-one;
the host environment (event dispatch honouring listener registration, interval
ticks firing only while their timer is active) is modelled by `step`/`run`
over an `Event` alphabet.
-/

namespace Carousel

/-- Playback state of one animation returned by `element.getAnimations()`:
whether it is paused and its `currentTime`. -/
structure AnimState where
  paused : Bool := false
  time : Nat := 0
deriving DecidableEq

/-- A slide element: its inline `transform: translateX(_%)` percentage
(`none` while no inline transform has been assigned yet) and the animations
in its subtree. -/
structure Slide where
  offset : Option Int := none
  anims : List AnimState := []
deriving DecidableEq

/-- Identity of an event-listener callback, as compared by
`removeEventListener`.  The named handlers of the source
(`handlePrevBtnClick`, `handleNextBtnClick`, `handleKeyboardNav`,
`handleMouseEnter`, `handleMouseLeave`) are single function objects created
once per factory call.  The anonymous closures
`() => handlePaginationBtnClick(index)` are a fresh function object at every
evaluation, so they carry both the captured `index` and an allocation id. -/
inductive Handler where
  | prevClick
  | nextClick
  | keyboardNav
  | mouseEnter
  | mouseLeave
  | paginationClick (idx : Nat) (closureId : Nat)
deriving DecidableEq

/-- A pagination button: its text label, whether it carries the
`carousel-btn--active` class, whether it carries `aria-selected="true"`,
and its registered click listeners. -/
structure PaginationBtn where
  label : String
  active : Bool := false
  ariaSelected : Bool := false
  listeners : List Handler := []
deriving DecidableEq

/-- The `CarouselConfig` options with their defaults (the two selector strings
only feed the DOM lookups, which are modelled by `Dom` below). -/
structure Config where
  enableNextPrevious : Bool := true
  enablePagination : Bool := true
  enableAutoplay : Bool := true
  autoplayInterval : Nat := 2000
deriving DecidableEq

/-- The closure state of one `JSCarousel` instance:
`currentSlideIndex`, the (static) slide list found by `querySelectorAll`,
and the element references `paginationContainer`, `prevBtn`, `nextBtn`
(`none` = the variable is `null`; otherwise the element is represented by
the data the claims observe — for `prevBtn`/`nextBtn` just its click
listeners).  `carouselListeners` are the container's registrations,
`autoplayTimer` is the stored interval id, `activeTimers` the ids of
intervals the environment is still firing, and `nextTimerId`/`nextClosureId`
are allocation counters for interval ids and anonymous closures. -/
structure State where
  cfg : Config
  currentSlideIndex : Nat := 0
  slides : List Slide
  paginationContainer : Option (List PaginationBtn) := none
  prevBtn : Option (List Handler) := none
  nextBtn : Option (List Handler) := none
  carouselListeners : List Handler := []
  autoplayTimer : Option Nat := none
  activeTimers : List Nat := []
  nextTimerId : Nat := 0
  nextClosureId : Nat := 0
deriving DecidableEq

/-- `addEventListener`: registering an already-registered listener (same
callback identity) is a no-op, otherwise the listener is appended. -/
def addListener (hs : List Handler) (h : Handler) : List Handler :=
  if h ∈ hs then hs else hs ++ [h]

/-- `removeEventListener`: removes the listener with the given callback
identity; a callback that was never registered is left alone. -/
def removeListener (hs : List Handler) (h : Handler) : List Handler :=
  hs.filter (fun x => x ≠ h)

/-- Index-aware map, mirroring a `forEach((x, index) => ...)` loop whose first
visited element has position `i`. -/
def mapIdxFrom (f : Nat → α → β) : Nat → List α → List β
  | _, [] => []
  | i, x :: xs => f i x :: mapIdxFrom f (i + 1) xs

/-- Replace the element at one position (out-of-range positions leave the list
unchanged, mirroring an indexed access guarded by a truthiness check). -/
def modifyAt (f : α → α) : Nat → List α → List α
  | _, [] => []
  | 0, x :: xs => f x :: xs
  | n + 1, x :: xs => x :: modifyAt f n xs

/-- `pauseAnimations`: pause every animation in the element's subtree. -/
def pauseAnims (s : Slide) : Slide :=
  { s with anims := s.anims.map fun a => { a with paused := true } }

/-- `resetAnimations`: seek every animation in the subtree to `currentTime = 0`. -/
def resetAnims (s : Slide) : Slide :=
  { s with anims := s.anims.map fun a => { a with time := 0 } }

/-- `playAnimations`: play every animation in the subtree. -/
def playAnims (s : Slide) : Slide :=
  { s with anims := s.anims.map fun a => { a with paused := false } }

/-- `adjustSlidePosition`: `pauseAnimations(carousel)` pauses every animation
in the container's subtree (in the model, all slide animations); then for each
slide `i` in order: if `i` is the current index its animations are reset, the
slide gets `translateX(100 * (i - currentSlideIndex) %)`, and if `i` is the
current index its animations are played. -/
def adjustSlidePosition (st : State) : State :=
  let paused := st.slides.map pauseAnims
  { st with
    slides := mapIdxFrom (fun i s =>
      let s1 := if i = st.currentSlideIndex then resetAnims s else s
      let s2 := { s1 with
        offset := some (100 * ((i : Int) - (st.currentSlideIndex : Int))) }
      if i = st.currentSlideIndex then playAnims s2 else s2) 0 paused }

/-- The per-button effect of `updatePaginationBtns` on the previously active
buttons: the filtered buttons (those carrying the active class) lose the class
and the `aria-selected` attribute; the rest are untouched. -/
def clearActive (b : PaginationBtn) : PaginationBtn :=
  if b.active then { b with active := false, ariaSelected := false } else b

/-- Marking the button at the current index: add the active class and set
`aria-selected="true"`. -/
def setActive (b : PaginationBtn) : PaginationBtn :=
  { b with active := true, ariaSelected := true }

/-- `updatePaginationBtns`: guarded by `if (paginationContainer)`; removes the
active marker and `aria-selected` from every button that has it, then marks
`paginationBtns[currentSlideIndex]` — guarded by `if (currActiveBtns)`, hence
a no-op when the index is out of range. -/
def updatePaginationBtns (st : State) : State :=
  match st.paginationContainer with
  | none => st
  | some btns =>
    { st with
      paginationContainer :=
        some (modifyAt setActive st.currentSlideIndex (btns.map clearActive)) }

/-- `updateCarouselState`: pagination button update (when enabled) followed by
slide repositioning. -/
def updateCarouselState (st : State) : State :=
  let st1 := if st.cfg.enablePagination then updatePaginationBtns st else st
  adjustSlidePosition st1

inductive Direction where
  | next
  | prev
deriving DecidableEq

/-- `(currentSlideIndex + 1) % slides.length`. -/
def nextIndex (c n : Nat) : Nat := (c + 1) % n

/-- `(currentSlideIndex - 1 + slides.length) % slides.length`, computed over
exact integers: for every reachable index the operand is nonnegative, where
the JS remainder agrees with the mathematical one. -/
def prevIndex (c n : Nat) : Nat := (((c : Int) - 1 + (n : Int)) % (n : Int)).toNat

/-- `moveSlide`: compute the wrapped neighbour index, store it, and run the
transition routine. -/
def moveSlide (st : State) (d : Direction) : State :=
  let newSlideIndex :=
    match d with
    | .next => nextIndex st.currentSlideIndex st.slides.length
    | .prev => prevIndex st.currentSlideIndex st.slides.length
  updateCarouselState { st with currentSlideIndex := newSlideIndex }

/-- `handlePaginationBtnClick(index)`: store the captured index
unconditionally and run the transition routine. -/
def handlePaginationBtnClick (st : State) (index : Nat) : State :=
  updateCarouselState { st with currentSlideIndex := index }

def handlePrevBtnClick (st : State) : State := moveSlide st .prev

def handleNextBtnClick (st : State) : State := moveSlide st .next

/-- `setInterval(() => moveSlide("next"), autoplayInterval)`: allocates a fresh
interval id, the environment starts firing it (`activeTimers`), and the id is
stored in `autoplayTimer`, overwriting whatever was stored before. -/
def startAutoplay (st : State) : State :=
  { st with
    autoplayTimer := some st.nextTimerId,
    activeTimers := st.activeTimers ++ [st.nextTimerId],
    nextTimerId := st.nextTimerId + 1 }

/-- `clearInterval(autoplayTimer)`: cancels the stored interval id if one is
stored (cancelling an undefined or already-cancelled id is a no-op); the
variable keeps its now-stale value. -/
def stopAutoplay (st : State) : State :=
  match st.autoplayTimer with
  | none => st
  | some t => { st with activeTimers := st.activeTimers.filter (fun x => x ≠ t) }

def handleMouseEnter (st : State) : State := stopAutoplay st

def handleMouseLeave (st : State) : State := startAutoplay st

/-- A `keydown` event as the handler observes it: whether
`carousel.contains(event.target)` holds, whether `event.defaultPrevented` was
already set, and `event.key`. -/
structure KeyEvent where
  targetInCarousel : Bool
  defaultPrevented : Bool
  key : String
deriving DecidableEq

/-- `handleKeyboardNav`.  The returned `Bool` records whether
`event.preventDefault()` was invoked. -/
def handleKeyboardNav (st : State) (e : KeyEvent) : State × Bool :=
  if !e.targetInCarousel then (st, false)
  else if e.defaultPrevented then (st, false)
  else if e.key = "ArrowLeft" then (moveSlide st .prev, true)
  else if e.key = "ArrowRight" then (moveSlide st .next, true)
  else (st, false)

/-- The body of `slides.forEach` inside `tweakStructure`, for the slides from
position `i` on, with `cid` the next closure allocation id: each slide is
moved into the inner wrapper (order preserved) and assigned the base offset
`translateX(index * 100 %)`; when pagination is enabled (the loop's guard
`enablePagination && paginationContainer`, whose second conjunct holds exactly
when the first does, since the container was just created under the same flag)
a labelled `role="tab"` button is created, appended to the pagination
container in order — the one at position 0 marked active and
`aria-selected` — and given a click closure over this iteration's own
`index`. Returns the updated slides, the created buttons, and the next
closure id. -/
def tweakSlides (enablePagination : Bool) :
    Nat → Nat → List Slide → List Slide × List PaginationBtn × Nat
  | cid, _, [] => ([], [], cid)
  | cid, i, s :: rest =>
    let s1 := { s with offset := some (100 * (i : Int)) }
    if enablePagination then
      let btn : PaginationBtn :=
        { label := toString (i + 1), active := i == 0, ariaSelected := i == 0,
          listeners := [Handler.paginationClick i cid] }
      let r := tweakSlides enablePagination (cid + 1) (i + 1) rest
      (s1 :: r.1, btn :: r.2.1, r.2.2)
    else
      let r := tweakSlides enablePagination cid (i + 1) rest
      (s1 :: r.1, r.2.1, r.2.2)

/-- `tweakStructure`.  The environment's tree mutations (creating the inner
wrapper, `insertBefore`, moving the slides, appending buttons) are modelled
from the spec as always-succeeding mutations — the spec's §6 collaborator
capabilities and §3 "calling `create` twice duplicates structure".  The
instance's element references (`paginationContainer`, `prevBtn`, `nextBtn`)
are reassigned to the freshly created elements; on a repeated `create` the
previously created elements stay in the document but are no longer referenced
by the instance. -/
def tweakStructure (st : State) : State :=
  let r := tweakSlides st.cfg.enablePagination st.nextClosureId 0 st.slides
  { st with
    slides := r.1,
    paginationContainer :=
      if st.cfg.enablePagination then some r.2.1 else st.paginationContainer,
    nextClosureId := r.2.2,
    prevBtn := if st.cfg.enableNextPrevious then some [] else st.prevBtn,
    nextBtn := if st.cfg.enableNextPrevious then some [] else st.nextBtn }

/-- The guard `enableAutoplay && autoplayInterval !== null`: `autoplayInterval`
has type `number` with default `2000`, so it is never `null` and the second
conjunct is always true. -/
def autoplayGuard (cfg : Config) : Bool := cfg.enableAutoplay

/-- `attachEventListeners`. -/
def attachEventListeners (st : State) : State :=
  let st1 := { st with prevBtn := st.prevBtn.map (fun hs => addListener hs .prevClick) }
  let st2 := { st1 with nextBtn := st1.nextBtn.map (fun hs => addListener hs .nextClick) }
  let st3 := { st2 with carouselListeners := addListener st2.carouselListeners .keyboardNav }
  if autoplayGuard st3.cfg then
    { st3 with
      carouselListeners :=
        addListener (addListener st3.carouselListeners .mouseEnter) .mouseLeave }
  else st3

/-- `create`: structure pass, listener wiring, then autoplay start when
enabled. -/
def create (st : State) : State :=
  let st1 := tweakStructure st
  let st2 := attachEventListeners st1
  if autoplayGuard st2.cfg then startAutoplay st2 else st2

/-- `destroy`.  The pagination branch re-queries the buttons and calls
`removeEventListener` with `() => handlePaginationBtnClick(index)` — a closure
constructed at teardown time, hence carrying a fresh allocation id that
matches no registered listener. -/
def destroy (st : State) : State :=
  let st1 := { st with prevBtn := st.prevBtn.map (fun hs => removeListener hs .prevClick) }
  let st2 := { st1 with nextBtn := st1.nextBtn.map (fun hs => removeListener hs .nextClick) }
  let st3 := { st2 with carouselListeners := removeListener st2.carouselListeners .keyboardNav }
  let st4 :=
    if st3.cfg.enablePagination then
      match st3.paginationContainer with
      | none => st3
      | some btns =>
        { st3 with
          paginationContainer :=
            some (mapIdxFrom (fun i b =>
              { b with
                listeners :=
                  removeListener b.listeners
                    (Handler.paginationClick i (st3.nextClosureId + i)) }) 0 btns),
          nextClosureId := st3.nextClosureId + btns.length }
    else st3
  if autoplayGuard st4.cfg then
    let st5 := { st4 with
      carouselListeners :=
        removeListener (removeListener st4.carouselListeners .mouseEnter) .mouseLeave }
    stopAutoplay st5
  else st4

/-- The two DOM lookups the factory performs:
`document.querySelector(carouselSelector)` (found or `null`) and
`carousel.querySelectorAll(slideSelector)` (a static node list). -/
structure Dom where
  carouselFound : Bool
  slides : List Slide
deriving DecidableEq

/-- The factory's initial closure state: `currentSlideIndex = 0`, all element
references `null`, no timer. -/
def initState (cfg : Config) (slides : List Slide) : State :=
  { cfg := cfg, slides := slides }

/-- The factory `JSCarousel`: validates the two lookups, emitting a
`console.error` diagnostic and returning `null` on failure; otherwise returns
the instance on which the handle's `create`/`destroy` operate.  The result is
the optional instance together with the diagnostics emitted. -/
def JSCarousel (cfg : Config) (dom : Dom) : Option State × List String :=
  if !dom.carouselFound then
    (none, ["Specify a valid selector for the carousel."])
  else if dom.slides.length = 0 then
    (none, ["Specify a valid selector for slides."])
  else
    (some (initState cfg dom.slides), [])

/-- The discrete events the environment can deliver to an instance:
the handle's two operations, an interval tick of timer `t`, the container's
pointer and keyboard events, clicks on the previous/next buttons, and a click
on pagination button `k` (position in the current pagination container). -/
inductive Event where
  | create
  | destroy
  | tick (t : Nat)
  | mouseEnter
  | mouseLeave
  | keydown (e : KeyEvent)
  | prevClick
  | nextClick
  | paginationClick (k : Nat)
deriving DecidableEq

/-- Invoke one registered listener of a pagination button: such a button only
ever carries `paginationClick` closures, each calling
`handlePaginationBtnClick` with its captured index. -/
def fireOn (st : State) (h : Handler) : State :=
  match h with
  | .paginationClick idx _ => handlePaginationBtnClick st idx
  | _ => st

/-- One environment event dispatched against the current registrations:
a handler runs only while it is registered on the target element, an interval
tick fires only while its timer is active, and `create`/`destroy` are the
handle's operations invoked by the caller. -/
def step (st : State) : Event → State
  | .create => create st
  | .destroy => destroy st
  | .tick t => if t ∈ st.activeTimers then moveSlide st .next else st
  | .mouseEnter =>
    if Handler.mouseEnter ∈ st.carouselListeners then handleMouseEnter st else st
  | .mouseLeave =>
    if Handler.mouseLeave ∈ st.carouselListeners then handleMouseLeave st else st
  | .keydown e =>
    if Handler.keyboardNav ∈ st.carouselListeners then (handleKeyboardNav st e).1 else st
  | .prevClick =>
    match st.prevBtn with
    | some hs => if Handler.prevClick ∈ hs then handlePrevBtnClick st else st
    | none => st
  | .nextClick =>
    match st.nextBtn with
    | some hs => if Handler.nextClick ∈ hs then handleNextBtnClick st else st
    | none => st
  | .paginationClick k =>
    match st.paginationContainer with
    | some btns =>
      match btns[k]? with
      | some b => b.listeners.foldl fireOn st
      | none => st
    | none => st

/-- A whole event trace. -/
def run (st : State) (evs : List Event) : State := evs.foldl step st

/-- The state-transition events: everything except the two lifecycle
operations. -/
def isTransitionEv : Event → Bool
  | .create => false
  | .destroy => false
  | _ => true

/-- Traces without a `create` event. -/
def notCreateEv : Event → Bool
  | .create => false
  | _ => true

/-- Physical pointer discipline: `mouseEnter` only fires while the pointer is
outside the container and `mouseLeave` only while it is inside, starting from
the given position. -/
def hoverOk : Bool → List Event → Bool
  | _, [] => true
  | inside, Event.mouseEnter :: evs => !inside && hoverOk true evs
  | inside, Event.mouseLeave :: evs => inside && hoverOk false evs
  | inside, _ :: evs => hoverOk inside evs

/-- Pointer position after one event. -/
def insideAfterEv (inside : Bool) : Event → Bool
  | .mouseEnter => true
  | .mouseLeave => false
  | _ => inside

/-- The inline horizontal offsets of all slides, in order. -/
def offsetsOf (st : State) : List (Option Int) := st.slides.map fun s => s.offset

/-- The registered click listeners of the pagination buttons, in order. -/
def pagListeners (st : State) : Option (List (List Handler)) :=
  st.paginationContainer.map (List.map fun b => b.listeners)

/-- The `carousel-btn--active` flags of the pagination buttons, in order. -/
def activeFlags (st : State) : List Bool :=
  (st.paginationContainer.getD []).map fun b => b.active

/-- The `aria-selected` flags of the pagination buttons, in order. -/
def ariaFlags (st : State) : List Bool :=
  (st.paginationContainer.getD []).map fun b => b.ariaSelected

/-! ### Generic list lemmas for the two loop combinators -/

theorem mapIdxFrom_length (f : Nat → α → β) :
    ∀ (i : Nat) (l : List α), (mapIdxFrom f i l).length = l.length
  | _, [] => rfl
  | i, _ :: xs => by simp [mapIdxFrom, mapIdxFrom_length f (i + 1) xs]

theorem mapIdxFrom_getElem? (f : Nat → α → β) :
    ∀ (i : Nat) (l : List α) (j : Nat), (mapIdxFrom f i l)[j]? = l[j]?.map (f (i + j))
  | _, [], _ => by simp [mapIdxFrom]
  | i, x :: xs, 0 => by simp [mapIdxFrom]
  | i, x :: xs, j + 1 => by
    have h := mapIdxFrom_getElem? f (i + 1) xs j
    simpa [mapIdxFrom, Nat.add_assoc, Nat.add_comm 1 j] using h

theorem modifyAt_length (f : α → α) :
    ∀ (j : Nat) (l : List α), (modifyAt f j l).length = l.length
  | j, [] => by cases j <;> rfl
  | 0, _ :: _ => rfl
  | j + 1, _ :: xs => by simp [modifyAt, modifyAt_length f j xs]

theorem modifyAt_getElem? (f : α → α) :
    ∀ (j : Nat) (l : List α) (k : Nat),
      (modifyAt f j l)[k]? = if k = j then l[k]?.map f else l[k]?
  | j, [], k => by cases j <;> simp [modifyAt]
  | 0, x :: xs, 0 => by simp [modifyAt]
  | 0, x :: xs, k + 1 => by simp [modifyAt]
  | j + 1, x :: xs, 0 => by simp [modifyAt]
  | j + 1, x :: xs, k + 1 => by
    have h := modifyAt_getElem? f j xs k
    simp [modifyAt, h]

/-! ### Characterizations and field-preservation facts of the operations -/

theorem updatePaginationBtns_none (st : State) (h : st.paginationContainer = none) :
    updatePaginationBtns st = st := by
  unfold updatePaginationBtns
  rw [h]

theorem updatePaginationBtns_some (st : State) (btns : List PaginationBtn)
    (h : st.paginationContainer = some btns) :
    updatePaginationBtns st =
      { st with
        paginationContainer :=
          some (modifyAt setActive st.currentSlideIndex (btns.map clearActive)) } := by
  unfold updatePaginationBtns
  rw [h]

theorem stopAutoplay_none (st : State) (h : st.autoplayTimer = none) :
    stopAutoplay st = st := by
  unfold stopAutoplay
  rw [h]

theorem stopAutoplay_some (st : State) (t : Nat) (h : st.autoplayTimer = some t) :
    stopAutoplay st =
      { st with activeTimers := st.activeTimers.filter (fun x => x ≠ t) } := by
  unfold stopAutoplay
  rw [h]

theorem updateCarouselState_eq (st : State) :
    updateCarouselState st =
      adjustSlidePosition (if st.cfg.enablePagination then updatePaginationBtns st else st) :=
  rfl

theorem adjustSlidePosition_slides_getElem? (st : State) (i : Nat) :
    (adjustSlidePosition st).slides[i]? = st.slides[i]?.map (fun s =>
      let s0 := pauseAnims s
      let s1 := if i = st.currentSlideIndex then resetAnims s0 else s0
      let s2 := { s1 with
        offset := some (100 * ((i : Int) - (st.currentSlideIndex : Int))) }
      if i = st.currentSlideIndex then playAnims s2 else s2) := by
  unfold adjustSlidePosition
  simp only [mapIdxFrom_getElem?, Nat.zero_add, List.getElem?_map, Option.map_map]
  rfl

theorem adjustSlidePosition_slides_length (st : State) :
    (adjustSlidePosition st).slides.length = st.slides.length := by
  unfold adjustSlidePosition
  simp [mapIdxFrom_length]

theorem offset_of_adjusted (st : State) (i : Nat) (s : Slide) :
    ((fun s =>
      let s0 := pauseAnims s
      let s1 := if i = st.currentSlideIndex then resetAnims s0 else s0
      let s2 := { s1 with
        offset := some (100 * ((i : Int) - (st.currentSlideIndex : Int))) }
      if i = st.currentSlideIndex then playAnims s2 else s2) s).offset
      = some (100 * ((i : Int) - (st.currentSlideIndex : Int))) := by
  by_cases h : i = st.currentSlideIndex <;> simp [h, playAnims]

/-! ### Closed forms for the structure-building pass -/

theorem tweakSlides_fst_length (ep : Bool) :
    ∀ (cid i : Nat) (l : List Slide), (tweakSlides ep cid i l).1.length = l.length
  | _, _, [] => rfl
  | cid, i, s :: rest => by
    cases ep <;>
      simp [tweakSlides, tweakSlides_fst_length _ _ _ rest]

theorem tweakSlides_fst_getElem? (ep : Bool) :
    ∀ (cid i : Nat) (l : List Slide) (j : Nat),
      (tweakSlides ep cid i l).1[j]? =
        l[j]?.map (fun s => { s with offset := some (100 * ((i + j : Nat) : Int)) })
  | _, _, [], j => by simp [tweakSlides]
  | cid, i, s :: rest, 0 => by cases ep <;> simp [tweakSlides]
  | cid, i, s :: rest, j + 1 => by
    cases ep <;>
      simpa [tweakSlides, Nat.add_assoc, Nat.add_comm 1 j] using
        tweakSlides_fst_getElem? _ _ (i + 1) rest j

theorem tweakSlides_btns_length :
    ∀ (cid i : Nat) (l : List Slide), (tweakSlides true cid i l).2.1.length = l.length
  | _, _, [] => rfl
  | cid, i, s :: rest => by
    simp [tweakSlides, tweakSlides_btns_length _ _ rest]

theorem tweakSlides_btns_getElem? :
    ∀ (cid i : Nat) (l : List Slide) (j : Nat),
      (tweakSlides true cid i l).2.1[j]? =
        if j < l.length then
          some { label := toString (i + j + 1), active := (i + j) == 0,
                 ariaSelected := (i + j) == 0,
                 listeners := [Handler.paginationClick (i + j) (cid + j)] }
        else none
  | _, _, [], j => by simp [tweakSlides]
  | cid, i, s :: rest, 0 => by simp [tweakSlides]
  | cid, i, s :: rest, j + 1 => by
    have h := tweakSlides_btns_getElem? (cid + 1) (i + 1) rest j
    simp only [tweakSlides, if_true, List.getElem?_cons_succ, h]
    by_cases hj : j < rest.length
    · have hj' : j + 1 < (s :: rest).length := by simp [Nat.succ_lt_succ hj]
      rw [if_pos hj, if_pos hj']
      have e1 : i + 1 + j = i + (j + 1) := by omega
      have e2 : cid + 1 + j = cid + (j + 1) := by omega
      rw [e1, e2]
    · have hj' : ¬j + 1 < (s :: rest).length := by
        simp only [List.length_cons]
        omega
      rw [if_neg hj, if_neg hj']

theorem tweakSlides_cid_true :
    ∀ (cid i : Nat) (l : List Slide), (tweakSlides true cid i l).2.2 = cid + l.length
  | _, _, [] => rfl
  | cid, i, s :: rest => by
    have h := tweakSlides_cid_true (cid + 1) (i + 1) rest
    simp [tweakSlides, h]
    omega

theorem tweakSlides_btns_false :
    ∀ (cid i : Nat) (l : List Slide), (tweakSlides false cid i l).2.1 = []
  | _, _, [] => rfl
  | cid, i, s :: rest => by
    simp [tweakSlides, tweakSlides_btns_false cid (i + 1) rest]

theorem tweakSlides_cid_false :
    ∀ (cid i : Nat) (l : List Slide), (tweakSlides false cid i l).2.2 = cid
  | _, _, [] => rfl
  | cid, i, s :: rest => by
    simp [tweakSlides, tweakSlides_cid_false cid (i + 1) rest]

theorem create_eq (st : State) :
    create st =
      if autoplayGuard (attachEventListeners (tweakStructure st)).cfg then
        startAutoplay (attachEventListeners (tweakStructure st))
      else attachEventListeners (tweakStructure st) := rfl

/-! ### The single-`create` reachable-state invariant -/

theorem nextIndex_lt (c n : Nat) (hn : 0 < n) : nextIndex c n < n :=
  Nat.mod_lt _ hn

theorem prevIndex_lt (c n : Nat) (hn : 0 < n) : prevIndex c n < n := by
  unfold prevIndex
  have h1 : (0 : Int) < (n : Int) := by exact_mod_cast hn
  have h2 := Int.emod_lt_of_pos ((c : Int) - 1 + (n : Int)) h1
  omega

/-- For every index `c < n`, the integer computation of `prevIndex` agrees with
the natural-number form `(c + (n - 1)) % n`. -/
theorem prevIndex_eq (c n : Nat) (hc : c < n) :
    prevIndex c n = (c + (n - 1)) % n := by
  unfold prevIndex
  have h1 : ((c : Int) - 1 + (n : Int)) = ((c + (n - 1) : Nat) : Int) := by
    push_cast
    omega
  rw [h1, ← Int.natCast_mod]
  exact Int.toNat_natCast _

theorem clearActive_eq (b : PaginationBtn) (h : b.ariaSelected = b.active) :
    clearActive b = { b with active := false, ariaSelected := false } := by
  rcases b with ⟨label, active, aria, ls⟩
  cases active <;> cases aria <;> simp_all [clearActive]

/-- The reachable-state invariant after a single `create`: the current index is
in range, every slide's inline offset obeys the positioning law
`100 % × (position − current)`, and — when pagination is enabled — there is one
button per slide, each holding exactly its creation-time click closure (over
its own position), with the active class and `aria-selected` exactly at the
current index. -/
def Inv (cfg : Config) (st : State) : Prop :=
  st.cfg = cfg ∧
  st.currentSlideIndex < st.slides.length ∧
  (∀ (i : Nat) (s : Slide), st.slides[i]? = some s →
      s.offset = some (100 * ((i : Int) - (st.currentSlideIndex : Int)))) ∧
  (cfg.enablePagination = true →
    ∃ btns, st.paginationContainer = some btns ∧
      btns.length = st.slides.length ∧
      st.nextClosureId = st.slides.length ∧
      ∀ (k : Nat) (b : PaginationBtn), btns[k]? = some b →
        b.listeners = [Handler.paginationClick k k] ∧
        b.active = (k == st.currentSlideIndex) ∧
        b.ariaSelected = (k == st.currentSlideIndex)) ∧
  (cfg.enablePagination = false → st.paginationContainer = none)

/-- The invariant only reads `cfg`, the index, the slides, the pagination
container and the closure counter; states agreeing on those fields share it. -/
theorem Inv_of_fields_eq {cfg : Config} {st st' : State}
    (h1 : st'.cfg = st.cfg) (h2 : st'.currentSlideIndex = st.currentSlideIndex)
    (h3 : st'.slides = st.slides) (h4 : st'.paginationContainer = st.paginationContainer)
    (h5 : st'.nextClosureId = st.nextClosureId) (h : Inv cfg st) : Inv cfg st' := by
  unfold Inv at h ⊢
  rw [h1, h2, h3, h4, h5]
  exact h

theorem Inv_startAutoplay (cfg : Config) (st : State) (h : Inv cfg st) :
    Inv cfg (startAutoplay st) :=
  Inv_of_fields_eq rfl rfl rfl rfl rfl h

theorem Inv_stopAutoplay (cfg : Config) (st : State) (h : Inv cfg st) :
    Inv cfg (stopAutoplay st) := by
  cases ht : st.autoplayTimer with
  | none => rw [stopAutoplay_none st ht]; exact h
  | some t =>
    rw [stopAutoplay_some st t ht]
    exact Inv_of_fields_eq rfl rfl rfl rfl rfl h

theorem attachEventListeners_eq (st : State) :
    attachEventListeners st =
      if autoplayGuard st.cfg then
        { st with
          prevBtn := st.prevBtn.map (fun hs => addListener hs .prevClick),
          nextBtn := st.nextBtn.map (fun hs => addListener hs .nextClick),
          carouselListeners :=
            addListener
              (addListener (addListener st.carouselListeners .keyboardNav) .mouseEnter)
              .mouseLeave }
      else
        { st with
          prevBtn := st.prevBtn.map (fun hs => addListener hs .prevClick),
          nextBtn := st.nextBtn.map (fun hs => addListener hs .nextClick),
          carouselListeners := addListener st.carouselListeners .keyboardNav } := rfl

theorem Inv_attachEventListeners (cfg : Config) (st : State) (h : Inv cfg st) :
    Inv cfg (attachEventListeners st) := by
  rw [attachEventListeners_eq]
  split
  · exact Inv_of_fields_eq rfl rfl rfl rfl rfl h
  · exact Inv_of_fields_eq rfl rfl rfl rfl rfl h

theorem Inv_updateCarouselState (cfg : Config) (st : State) (j : Nat)
    (hInv : Inv cfg st) (hj : j < st.slides.length) :
    Inv cfg (updateCarouselState { st with currentSlideIndex := j }) := by
  obtain ⟨hcfg, hc, hoff, hpag, hnopag⟩ := hInv
  by_cases hp : cfg.enablePagination = true
  · obtain ⟨btns, hpc, hlen, hcid, hbtns⟩ := hpag hp
    have hA : updateCarouselState { st with currentSlideIndex := j } =
        adjustSlidePosition { st with
          currentSlideIndex := j,
          paginationContainer :=
            some (modifyAt setActive j (btns.map clearActive)) } := by
      rw [updateCarouselState_eq]
      have hcp : ({ st with currentSlideIndex := j } : State).cfg.enablePagination = true := by
        rw [show ({ st with currentSlideIndex := j } : State).cfg = cfg from hcfg]
        exact hp
      rw [if_pos hcp,
        updatePaginationBtns_some { st with currentSlideIndex := j } btns hpc]
    rw [hA]
    refine ⟨hcfg, ?_, ?_, ?_, ?_⟩
    · show j < (adjustSlidePosition _).slides.length
      rw [adjustSlidePosition_slides_length]
      exact hj
    · intro i s hs
      rw [adjustSlidePosition_slides_getElem?] at hs
      obtain ⟨s0, hs0, rfl⟩ := Option.map_eq_some'.mp hs
      exact offset_of_adjusted _ i s0
    · intro _
      refine ⟨modifyAt setActive j (btns.map clearActive), rfl, ?_, ?_, ?_⟩
      · show _ = (adjustSlidePosition _).slides.length
        rw [adjustSlidePosition_slides_length, modifyAt_length, List.length_map]
        exact hlen
      · show _ = (adjustSlidePosition _).slides.length
        rw [adjustSlidePosition_slides_length]
        exact hcid
      · intro k b hk
        rw [modifyAt_getElem?, List.getElem?_map] at hk
        by_cases hkj : k = j
        · rw [if_pos hkj, Option.map_map] at hk
          obtain ⟨b0, hb0, rfl⟩ := Option.map_eq_some'.mp hk
          obtain ⟨hl, ha, har⟩ := hbtns k b0 hb0
          have hclr := clearActive_eq b0 (har.trans ha.symm)
          subst hkj
          show _ ∧ _ = (k == k) ∧ _ = (k == k)
          simp [Function.comp, hclr, setActive, hl]
        · rw [if_neg hkj] at hk
          obtain ⟨b0, hb0, rfl⟩ := Option.map_eq_some'.mp hk
          obtain ⟨hl, ha, har⟩ := hbtns k b0 hb0
          rw [clearActive_eq b0 (har.trans ha.symm)]
          show _ ∧ _ = (k == j) ∧ _ = (k == j)
          refine ⟨hl, ?_, ?_⟩ <;> simp [beq_eq_false_iff_ne, hkj]
    · intro hpf
      rw [hpf] at hp
      exact absurd hp (by simp)
  · have hpf : cfg.enablePagination = false := by
      revert hp
      cases cfg.enablePagination <;> simp
    have hpc := hnopag hpf
    have hA : updateCarouselState { st with currentSlideIndex := j } =
        adjustSlidePosition { st with currentSlideIndex := j } := by
      rw [updateCarouselState_eq]
      have hcp : ¬({ st with currentSlideIndex := j } : State).cfg.enablePagination = true := by
        rw [show ({ st with currentSlideIndex := j } : State).cfg = cfg from hcfg, hpf]
        simp
      rw [if_neg hcp]
    rw [hA]
    refine ⟨hcfg, ?_, ?_, ?_, ?_⟩
    · show j < (adjustSlidePosition _).slides.length
      rw [adjustSlidePosition_slides_length]
      exact hj
    · intro i s hs
      rw [adjustSlidePosition_slides_getElem?] at hs
      obtain ⟨s0, hs0, rfl⟩ := Option.map_eq_some'.mp hs
      exact offset_of_adjusted _ i s0
    · intro hpt
      rw [hpt] at hpf
      exact absurd hpf (by simp)
    · intro _
      exact hpc

theorem Inv_moveSlide (cfg : Config) (st : State) (d : Direction)
    (hInv : Inv cfg st) : Inv cfg (moveSlide st d) := by
  have hn : 0 < st.slides.length := Nat.lt_of_le_of_lt (Nat.zero_le _) hInv.2.1
  cases d
  · exact Inv_updateCarouselState cfg st _ hInv (nextIndex_lt _ _ hn)
  · exact Inv_updateCarouselState cfg st _ hInv (prevIndex_lt _ _ hn)

theorem handleKeyboardNav_split (st : State) (e : KeyEvent) :
    (handleKeyboardNav st e).1 = st ∨ (handleKeyboardNav st e).1 = moveSlide st .prev ∨
      (handleKeyboardNav st e).1 = moveSlide st .next := by
  unfold handleKeyboardNav
  split_ifs <;> simp

theorem Inv_step (cfg : Config) (st : State) (e : Event) (hInv : Inv cfg st)
    (he : isTransitionEv e = true) : Inv cfg (step st e) := by
  cases e with
  | create => simp [isTransitionEv] at he
  | destroy => simp [isTransitionEv] at he
  | tick t =>
    by_cases h : t ∈ st.activeTimers
    · simpa [step, h] using Inv_moveSlide cfg st .next hInv
    · simpa [step, h] using hInv
  | mouseEnter =>
    by_cases h : Handler.mouseEnter ∈ st.carouselListeners
    · simpa [step, h, handleMouseEnter] using Inv_stopAutoplay cfg st hInv
    · simpa [step, h] using hInv
  | mouseLeave =>
    by_cases h : Handler.mouseLeave ∈ st.carouselListeners
    · simpa [step, h, handleMouseLeave] using Inv_startAutoplay cfg st hInv
    · simpa [step, h] using hInv
  | keydown ke =>
    by_cases h : Handler.keyboardNav ∈ st.carouselListeners
    · have hgoal : step st (.keydown ke) = (handleKeyboardNav st ke).1 := by
        simp [step, h]
      rw [hgoal]
      rcases handleKeyboardNav_split st ke with hc | hc | hc <;> rw [hc]
      · exact hInv
      · exact Inv_moveSlide cfg st .prev hInv
      · exact Inv_moveSlide cfg st .next hInv
    · simpa [step, h] using hInv
  | prevClick =>
    cases hb : st.prevBtn with
    | none => simpa [step, hb] using hInv
    | some hs =>
      by_cases hm : Handler.prevClick ∈ hs
      · simpa [step, hb, hm, handlePrevBtnClick] using Inv_moveSlide cfg st .prev hInv
      · simpa [step, hb, hm] using hInv
  | nextClick =>
    cases hb : st.nextBtn with
    | none => simpa [step, hb] using hInv
    | some hs =>
      by_cases hm : Handler.nextClick ∈ hs
      · simpa [step, hb, hm, handleNextBtnClick] using Inv_moveSlide cfg st .next hInv
      · simpa [step, hb, hm] using hInv
  | paginationClick k =>
    by_cases hp : cfg.enablePagination = true
    · obtain ⟨btns, hpc, hlen, hcid, hbtns⟩ := hInv.2.2.2.1 hp
      cases hk : btns[k]? with
      | none => simpa [step, hpc, hk] using hInv
      | some b =>
        have hkb := hbtns k b hk
        have hklt : k < st.slides.length := by
          have hkb' : k < btns.length := by
            by_contra hh
            rw [List.getElem?_eq_none (by omega)] at hk
            exact Option.noConfusion hk
          omega
        have hgoal : step st (.paginationClick k) = handlePaginationBtnClick st k := by
          simp [step, hpc, hk, hkb.1, fireOn]
        rw [hgoal]
        exact Inv_updateCarouselState cfg st k hInv hklt
    · have hpf : cfg.enablePagination = false := by
        revert hp
        cases cfg.enablePagination <;> simp
      have hpc := hInv.2.2.2.2 hpf
      simpa [step, hpc] using hInv

theorem Inv_run (cfg : Config) (st : State) (evs : List Event) (hInv : Inv cfg st)
    (hevs : evs.all isTransitionEv = true) : Inv cfg (run st evs) := by
  induction evs generalizing st with
  | nil => exact hInv
  | cons e rest ih =>
    rw [List.all_cons, Bool.and_eq_true] at hevs
    exact ih (step st e) (Inv_step cfg st e hInv hevs.1) hevs.2

/-- Closed form of the structure-building pass on a fresh instance. -/
theorem tweakStructure_init (cfg : Config) (slides₀ : List Slide) :
    tweakStructure (initState cfg slides₀) =
      { cfg := cfg,
        currentSlideIndex := 0,
        slides := (tweakSlides cfg.enablePagination 0 0 slides₀).1,
        paginationContainer :=
          if cfg.enablePagination then
            some (tweakSlides cfg.enablePagination 0 0 slides₀).2.1
          else none,
        prevBtn := if cfg.enableNextPrevious then some [] else none,
        nextBtn := if cfg.enableNextPrevious then some [] else none,
        carouselListeners := [],
        autoplayTimer := none,
        activeTimers := [],
        nextTimerId := 0,
        nextClosureId := (tweakSlides cfg.enablePagination 0 0 slides₀).2.2 } := rfl

/-- After the structure-building pass on a fresh instance, the invariant
holds: slide `i` sits at `translateX(i*100%)` with the current index still 0,
and (when enabled) pagination button `k` carries the closure over index `k`
with allocation id `k`, button 0 being active. -/
theorem Inv_tweak_init (cfg : Config) (slides₀ : List Slide) (h0 : slides₀ ≠ []) :
    Inv cfg (tweakStructure (initState cfg slides₀)) := by
  have hn : 0 < slides₀.length := List.length_pos.mpr h0
  rw [tweakStructure_init]
  cases hp : cfg.enablePagination with
  | true =>
    simp only [eq_self_iff_true, if_true]
    refine ⟨rfl, ?_, ?_, ?_, ?_⟩
    · show 0 < (tweakSlides true 0 0 slides₀).1.length
      rw [tweakSlides_fst_length]
      exact hn
    · intro i s hs
      have hs' : (tweakSlides true 0 0 slides₀).1[i]? = some s := hs
      rw [tweakSlides_fst_getElem?] at hs'
      obtain ⟨s0, hs0, rfl⟩ := Option.map_eq_some'.mp hs'
      show some (100 * ((0 + i : Nat) : Int)) = some (100 * ((i : Int) - ((0 : Nat) : Int)))
      simp
    · intro _
      refine ⟨(tweakSlides true 0 0 slides₀).2.1, rfl, ?_, ?_, ?_⟩
      · show (tweakSlides true 0 0 slides₀).2.1.length =
          (tweakSlides true 0 0 slides₀).1.length
        rw [tweakSlides_btns_length, tweakSlides_fst_length]
      · show (tweakSlides true 0 0 slides₀).2.2 =
          (tweakSlides true 0 0 slides₀).1.length
        rw [tweakSlides_cid_true, tweakSlides_fst_length, Nat.zero_add]
      · intro k b hk
        rw [tweakSlides_btns_getElem?] at hk
        by_cases hkl : k < slides₀.length
        · rw [if_pos hkl] at hk
          obtain rfl := Option.some.inj hk
          refine ⟨by simp, ?_, ?_⟩ <;>
            · show _ = (k == (0 : Nat))
              simp
        · rw [if_neg hkl] at hk
          exact Option.noConfusion hk
    · intro hpf
      rw [hp] at hpf
      exact absurd hpf (by simp)
  | false =>
    simp only [Bool.false_eq_true, if_false]
    refine ⟨rfl, ?_, ?_, ?_, ?_⟩
    · show 0 < (tweakSlides false 0 0 slides₀).1.length
      rw [tweakSlides_fst_length]
      exact hn
    · intro i s hs
      have hs' : (tweakSlides false 0 0 slides₀).1[i]? = some s := hs
      rw [tweakSlides_fst_getElem?] at hs'
      obtain ⟨s0, hs0, rfl⟩ := Option.map_eq_some'.mp hs'
      show some (100 * ((0 + i : Nat) : Int)) = some (100 * ((i : Int) - ((0 : Nat) : Int)))
      simp
    · intro hpt
      rw [hp] at hpt
      exact absurd hpt (by simp)
    · intro _
      rfl

/-- The invariant holds right after `create` on a fresh instance. -/
theorem Inv_create (cfg : Config) (slides₀ : List Slide) (h0 : slides₀ ≠ []) :
    Inv cfg (create (initState cfg slides₀)) := by
  rw [create_eq]
  have h := Inv_attachEventListeners cfg _ (Inv_tweak_init cfg slides₀ h0)
  split
  · exact Inv_startAutoplay cfg _ h
  · exact h

/-! ### Frame lemmas: which fields each operation leaves untouched -/

theorem mem_removeListener (hs : List Handler) (h x : Handler) :
    x ∈ removeListener hs h ↔ x ∈ hs ∧ x ≠ h := by
  unfold removeListener
  simp [List.mem_filter]

theorem listeners_clearActive (b : PaginationBtn) :
    (clearActive b).listeners = b.listeners := by
  unfold clearActive
  split <;> rfl

theorem map_of_modifyAt (g : α → β) (f : α → α) (hf : ∀ x, g (f x) = g x) :
    ∀ (j : Nat) (l : List α), (modifyAt f j l).map g = l.map g
  | j, [] => by cases j <;> rfl
  | 0, x :: xs => by simp [modifyAt, hf]
  | j + 1, x :: xs => by simp [modifyAt, map_of_modifyAt g f hf j xs]

/-- `updateCarouselState` changes only the slides and the pagination buttons'
visual state: configuration, index, wiring, closures and timers are untouched,
and so are the buttons' registered listeners. -/
theorem updateCarouselState_frame (st : State) :
    (updateCarouselState st).cfg = st.cfg ∧
    (updateCarouselState st).currentSlideIndex = st.currentSlideIndex ∧
    (updateCarouselState st).slides.length = st.slides.length ∧
    (updateCarouselState st).prevBtn = st.prevBtn ∧
    (updateCarouselState st).nextBtn = st.nextBtn ∧
    (updateCarouselState st).carouselListeners = st.carouselListeners ∧
    (updateCarouselState st).autoplayTimer = st.autoplayTimer ∧
    (updateCarouselState st).activeTimers = st.activeTimers ∧
    (updateCarouselState st).nextTimerId = st.nextTimerId ∧
    (updateCarouselState st).nextClosureId = st.nextClosureId ∧
    pagListeners (updateCarouselState st) = pagListeners st := by
  rw [updateCarouselState_eq]
  have hlen : ∀ s : State, (adjustSlidePosition s).slides.length = s.slides.length :=
    adjustSlidePosition_slides_length
  split
  · cases hpc : st.paginationContainer with
    | none =>
      rw [updatePaginationBtns_none st hpc]
      exact ⟨rfl, rfl, hlen st, rfl, rfl, rfl, rfl, rfl, rfl, rfl, rfl⟩
    | some btns =>
      rw [updatePaginationBtns_some st btns hpc]
      refine ⟨rfl, rfl, hlen _, rfl, rfl, rfl, rfl, rfl, rfl, rfl, ?_⟩
      show some _ = Option.map _ st.paginationContainer
      rw [hpc]
      show some ((modifyAt setActive st.currentSlideIndex (btns.map clearActive)).map
        (fun b => b.listeners)) = some (btns.map fun b => b.listeners)
      rw [map_of_modifyAt (fun b : PaginationBtn => b.listeners) setActive (fun _ => rfl),
        List.map_map]
      exact congrArg some (List.map_congr_left (fun b _ => listeners_clearActive b))
  · exact ⟨rfl, rfl, hlen st, rfl, rfl, rfl, rfl, rfl, rfl, rfl, rfl⟩

theorem moveSlide_frame (st : State) (d : Direction) :
    (moveSlide st d).slides.length = st.slides.length ∧
    (moveSlide st d).cfg = st.cfg ∧
    (moveSlide st d).prevBtn = st.prevBtn ∧
    (moveSlide st d).nextBtn = st.nextBtn ∧
    (moveSlide st d).carouselListeners = st.carouselListeners ∧
    (moveSlide st d).autoplayTimer = st.autoplayTimer ∧
    (moveSlide st d).activeTimers = st.activeTimers ∧
    (moveSlide st d).nextTimerId = st.nextTimerId ∧
    (moveSlide st d).nextClosureId = st.nextClosureId ∧
    pagListeners (moveSlide st d) = pagListeners st := by
  cases d <;>
    · obtain ⟨h1, h2, h3, h4, h5, h6, h7, h8, h9, h10, h11⟩ := updateCarouselState_frame
        { st with currentSlideIndex := nextIndex st.currentSlideIndex st.slides.length }
      obtain ⟨g1, g2, g3, g4, g5, g6, g7, g8, g9, g10, g11⟩ := updateCarouselState_frame
        { st with currentSlideIndex := prevIndex st.currentSlideIndex st.slides.length }
      first
      | exact ⟨h3, h1, h4, h5, h6, h7, h8, h9, h10, h11⟩
      | exact ⟨g3, g1, g4, g5, g6, g7, g8, g9, g10, g11⟩

theorem moveSlide_next_index (st : State) :
    (moveSlide st .next).currentSlideIndex =
      nextIndex st.currentSlideIndex st.slides.length :=
  (updateCarouselState_frame _).2.1

theorem moveSlide_prev_index (st : State) :
    (moveSlide st .prev).currentSlideIndex =
      prevIndex st.currentSlideIndex st.slides.length :=
  (updateCarouselState_frame _).2.1

theorem handlePaginationBtnClick_index (st : State) (k : Nat) :
    (handlePaginationBtnClick st k).currentSlideIndex = k :=
  (updateCarouselState_frame _).2.1

theorem fireOn_frame (st : State) (h : Handler) :
    (fireOn st h).cfg = st.cfg ∧
    (fireOn st h).prevBtn = st.prevBtn ∧
    (fireOn st h).nextBtn = st.nextBtn ∧
    (fireOn st h).carouselListeners = st.carouselListeners ∧
    (fireOn st h).autoplayTimer = st.autoplayTimer ∧
    (fireOn st h).activeTimers = st.activeTimers ∧
    (fireOn st h).nextTimerId = st.nextTimerId ∧
    (fireOn st h).nextClosureId = st.nextClosureId ∧
    pagListeners (fireOn st h) = pagListeners st ∧
    (fireOn st h).slides.length = st.slides.length := by
  cases h with
  | paginationClick idx cid =>
    obtain ⟨h1, h2, h3, h4, h5, h6, h7, h8, h9, h10, h11⟩ := updateCarouselState_frame
      { st with currentSlideIndex := idx }
    exact ⟨h1, h4, h5, h6, h7, h8, h9, h10, h11, h3⟩
  | prevClick => exact ⟨rfl, rfl, rfl, rfl, rfl, rfl, rfl, rfl, rfl, rfl⟩
  | nextClick => exact ⟨rfl, rfl, rfl, rfl, rfl, rfl, rfl, rfl, rfl, rfl⟩
  | keyboardNav => exact ⟨rfl, rfl, rfl, rfl, rfl, rfl, rfl, rfl, rfl, rfl⟩
  | mouseEnter => exact ⟨rfl, rfl, rfl, rfl, rfl, rfl, rfl, rfl, rfl, rfl⟩
  | mouseLeave => exact ⟨rfl, rfl, rfl, rfl, rfl, rfl, rfl, rfl, rfl, rfl⟩

theorem foldl_fireOn_frame (st : State) (hs : List Handler) :
    ((hs.foldl fireOn st).cfg = st.cfg ∧
     (hs.foldl fireOn st).prevBtn = st.prevBtn ∧
     (hs.foldl fireOn st).nextBtn = st.nextBtn ∧
     (hs.foldl fireOn st).carouselListeners = st.carouselListeners ∧
     (hs.foldl fireOn st).autoplayTimer = st.autoplayTimer ∧
     (hs.foldl fireOn st).activeTimers = st.activeTimers ∧
     (hs.foldl fireOn st).nextTimerId = st.nextTimerId ∧
     (hs.foldl fireOn st).nextClosureId = st.nextClosureId ∧
     pagListeners (hs.foldl fireOn st) = pagListeners st ∧
     (hs.foldl fireOn st).slides.length = st.slides.length) := by
  induction hs generalizing st with
  | nil => exact ⟨rfl, rfl, rfl, rfl, rfl, rfl, rfl, rfl, rfl, rfl⟩
  | cons h rest ih =>
    obtain ⟨f1, f2, f3, f4, f5, f6, f7, f8, f9, f10⟩ := fireOn_frame st h
    obtain ⟨i1, i2, i3, i4, i5, i6, i7, i8, i9, i10⟩ := ih (fireOn st h)
    exact ⟨i1.trans f1, i2.trans f2, i3.trans f3, i4.trans f4, i5.trans f5,
      i6.trans f6, i7.trans f7, i8.trans f8, i9.trans f9, i10.trans f10⟩

theorem stopAutoplay_frame (st : State) :
    (stopAutoplay st).cfg = st.cfg ∧
    (stopAutoplay st).prevBtn = st.prevBtn ∧
    (stopAutoplay st).nextBtn = st.nextBtn ∧
    (stopAutoplay st).carouselListeners = st.carouselListeners ∧
    (stopAutoplay st).nextClosureId = st.nextClosureId ∧
    pagListeners (stopAutoplay st) = pagListeners st ∧
    (stopAutoplay st).slides.length = st.slides.length ∧
    (stopAutoplay st).autoplayTimer = st.autoplayTimer ∧
    (stopAutoplay st).nextTimerId = st.nextTimerId ∧
    (stopAutoplay st).currentSlideIndex = st.currentSlideIndex ∧
    (stopAutoplay st).paginationContainer = st.paginationContainer ∧
    (stopAutoplay st).slides = st.slides := by
  cases ht : st.autoplayTimer with
  | none =>
    rw [stopAutoplay_none st ht]
    exact ⟨rfl, rfl, rfl, rfl, rfl, rfl, rfl, ht, rfl, rfl, rfl, rfl⟩
  | some t =>
    rw [stopAutoplay_some st t ht]
    exact ⟨rfl, rfl, rfl, rfl, rfl, rfl, rfl, ht, rfl, rfl, rfl, rfl⟩

/-- Every state-transition event (everything except `create`/`destroy`)
leaves the configuration, the element references, all listener registrations
and the closure counter unchanged, as well as the number of slides. -/
theorem step_preserves_wiring (st : State) (e : Event) (he : isTransitionEv e = true) :
    (step st e).cfg = st.cfg ∧
    (step st e).prevBtn = st.prevBtn ∧
    (step st e).nextBtn = st.nextBtn ∧
    (step st e).carouselListeners = st.carouselListeners ∧
    (step st e).nextClosureId = st.nextClosureId ∧
    pagListeners (step st e) = pagListeners st ∧
    (step st e).slides.length = st.slides.length := by
  have triv : ∀ s : State, s.cfg = s.cfg ∧ s.prevBtn = s.prevBtn ∧ s.nextBtn = s.nextBtn ∧
      s.carouselListeners = s.carouselListeners ∧ s.nextClosureId = s.nextClosureId ∧
      pagListeners s = pagListeners s ∧ s.slides.length = s.slides.length :=
    fun s => ⟨rfl, rfl, rfl, rfl, rfl, rfl, rfl⟩
  have ofMove : ∀ (d : Direction), (moveSlide st d).cfg = st.cfg ∧
      (moveSlide st d).prevBtn = st.prevBtn ∧ (moveSlide st d).nextBtn = st.nextBtn ∧
      (moveSlide st d).carouselListeners = st.carouselListeners ∧
      (moveSlide st d).nextClosureId = st.nextClosureId ∧
      pagListeners (moveSlide st d) = pagListeners st ∧
      (moveSlide st d).slides.length = st.slides.length := by
    intro d
    obtain ⟨h1, h2, h3, h4, h5, h6, h7, h8, h9, h10⟩ := moveSlide_frame st d
    exact ⟨h2, h3, h4, h5, h9, h10, h1⟩
  cases e with
  | create => simp [isTransitionEv] at he
  | destroy => simp [isTransitionEv] at he
  | tick t =>
    by_cases h : t ∈ st.activeTimers
    · have hstep : step st (.tick t) = moveSlide st .next := by simp [step, h]
      rw [hstep]
      exact ofMove .next
    · have hstep : step st (.tick t) = st := by simp [step, h]
      rw [hstep]
      exact triv st
  | mouseEnter =>
    by_cases h : Handler.mouseEnter ∈ st.carouselListeners
    · have hstep : step st .mouseEnter = stopAutoplay st := by
        simp [step, h, handleMouseEnter]
      rw [hstep]
      obtain ⟨h1, h2, h3, h4, h5, h6, h7, h8, h9, h10, h11, h12⟩ := stopAutoplay_frame st
      exact ⟨h1, h2, h3, h4, h5, h6, h7⟩
    · have hstep : step st .mouseEnter = st := by simp [step, h]
      rw [hstep]
      exact triv st
  | mouseLeave =>
    by_cases h : Handler.mouseLeave ∈ st.carouselListeners
    · have hstep : step st .mouseLeave = startAutoplay st := by
        simp [step, h, handleMouseLeave]
      rw [hstep]
      exact ⟨rfl, rfl, rfl, rfl, rfl, rfl, rfl⟩
    · have hstep : step st .mouseLeave = st := by simp [step, h]
      rw [hstep]
      exact triv st
  | keydown ke =>
    by_cases h : Handler.keyboardNav ∈ st.carouselListeners
    · have hstep : step st (.keydown ke) = (handleKeyboardNav st ke).1 := by simp [step, h]
      rw [hstep]
      rcases handleKeyboardNav_split st ke with hc | hc | hc <;> rw [hc]
      · exact triv st
      · exact ofMove .prev
      · exact ofMove .next
    · have hstep : step st (.keydown ke) = st := by simp [step, h]
      rw [hstep]
      exact triv st
  | prevClick =>
    have hsplit : step st .prevClick = st ∨ step st .prevClick = moveSlide st .prev := by
      cases hb : st.prevBtn with
      | none => exact Or.inl (by simp [step, hb])
      | some hs =>
        by_cases hm : Handler.prevClick ∈ hs
        · exact Or.inr (by simp [step, hb, hm, handlePrevBtnClick])
        · exact Or.inl (by simp [step, hb, hm])
    rcases hsplit with hc | hc <;> rw [hc]
    · exact triv st
    · exact ofMove .prev
  | nextClick =>
    have hsplit : step st .nextClick = st ∨ step st .nextClick = moveSlide st .next := by
      cases hb : st.nextBtn with
      | none => exact Or.inl (by simp [step, hb])
      | some hs =>
        by_cases hm : Handler.nextClick ∈ hs
        · exact Or.inr (by simp [step, hb, hm, handleNextBtnClick])
        · exact Or.inl (by simp [step, hb, hm])
    rcases hsplit with hc | hc <;> rw [hc]
    · exact triv st
    · exact ofMove .next
  | paginationClick k =>
    have hsplit : step st (.paginationClick k) = st ∨
        ∃ b : PaginationBtn, step st (.paginationClick k) = b.listeners.foldl fireOn st := by
      cases hpc : st.paginationContainer with
      | none => exact Or.inl (by simp [step, hpc])
      | some btns =>
        cases hk : btns[k]? with
        | none => exact Or.inl (by simp [step, hpc, hk])
        | some b => exact Or.inr ⟨b, by simp [step, hpc, hk]⟩
    rcases hsplit with hc | ⟨b, hc⟩ <;> rw [hc]
    · exact triv st
    · obtain ⟨h1, h2, h3, h4, h5, h6, h7, h8, h9, h10⟩ := foldl_fireOn_frame st b.listeners
      exact ⟨h1, h2, h3, h4, h8, h9, h10⟩

/-- The non-hover transition events also leave the autoplay timer state
unchanged. -/
theorem step_preserves_timers (st : State) (e : Event) (he : isTransitionEv e = true)
    (h1 : e ≠ Event.mouseEnter) (h2 : e ≠ Event.mouseLeave) :
    (step st e).autoplayTimer = st.autoplayTimer ∧
    (step st e).activeTimers = st.activeTimers ∧
    (step st e).nextTimerId = st.nextTimerId := by
  have ofMove : ∀ (d : Direction), (moveSlide st d).autoplayTimer = st.autoplayTimer ∧
      (moveSlide st d).activeTimers = st.activeTimers ∧
      (moveSlide st d).nextTimerId = st.nextTimerId := by
    intro d
    obtain ⟨_, _, _, _, _, h6, h7, h8, _, _⟩ := moveSlide_frame st d
    exact ⟨h6, h7, h8⟩
  cases e with
  | create => simp [isTransitionEv] at he
  | destroy => simp [isTransitionEv] at he
  | mouseEnter => exact absurd rfl h1
  | mouseLeave => exact absurd rfl h2
  | tick t =>
    by_cases h : t ∈ st.activeTimers
    · have hstep : step st (.tick t) = moveSlide st .next := by simp [step, h]
      rw [hstep]
      exact ofMove .next
    · have hstep : step st (.tick t) = st := by simp [step, h]
      rw [hstep]
      exact ⟨rfl, rfl, rfl⟩
  | keydown ke =>
    by_cases h : Handler.keyboardNav ∈ st.carouselListeners
    · have hstep : step st (.keydown ke) = (handleKeyboardNav st ke).1 := by simp [step, h]
      rw [hstep]
      rcases handleKeyboardNav_split st ke with hc | hc | hc <;> rw [hc]
      · exact ⟨rfl, rfl, rfl⟩
      · exact ofMove .prev
      · exact ofMove .next
    · have hstep : step st (.keydown ke) = st := by simp [step, h]
      rw [hstep]
      exact ⟨rfl, rfl, rfl⟩
  | prevClick =>
    have hsplit : step st .prevClick = st ∨ step st .prevClick = moveSlide st .prev := by
      cases hb : st.prevBtn with
      | none => exact Or.inl (by simp [step, hb])
      | some hs =>
        by_cases hm : Handler.prevClick ∈ hs
        · exact Or.inr (by simp [step, hb, hm, handlePrevBtnClick])
        · exact Or.inl (by simp [step, hb, hm])
    rcases hsplit with hc | hc <;> rw [hc]
    · exact ⟨rfl, rfl, rfl⟩
    · exact ofMove .prev
  | nextClick =>
    have hsplit : step st .nextClick = st ∨ step st .nextClick = moveSlide st .next := by
      cases hb : st.nextBtn with
      | none => exact Or.inl (by simp [step, hb])
      | some hs =>
        by_cases hm : Handler.nextClick ∈ hs
        · exact Or.inr (by simp [step, hb, hm, handleNextBtnClick])
        · exact Or.inl (by simp [step, hb, hm])
    rcases hsplit with hc | hc <;> rw [hc]
    · exact ⟨rfl, rfl, rfl⟩
    · exact ofMove .next
  | paginationClick k =>
    have hsplit : step st (.paginationClick k) = st ∨
        ∃ b : PaginationBtn, step st (.paginationClick k) = b.listeners.foldl fireOn st := by
      cases hpc : st.paginationContainer with
      | none => exact Or.inl (by simp [step, hpc])
      | some btns =>
        cases hk : btns[k]? with
        | none => exact Or.inl (by simp [step, hpc, hk])
        | some b => exact Or.inr ⟨b, by simp [step, hpc, hk]⟩
    rcases hsplit with hc | ⟨b, hc⟩ <;> rw [hc]
    · exact ⟨rfl, rfl, rfl⟩
    · obtain ⟨_, _, _, _, h5, h6, h7, _, _, _⟩ := foldl_fireOn_frame st b.listeners
      exact ⟨h5, h6, h7⟩

theorem run_preserves_wiring (st : State) (evs : List Event)
    (hevs : evs.all isTransitionEv = true) :
    (run st evs).cfg = st.cfg ∧
    (run st evs).prevBtn = st.prevBtn ∧
    (run st evs).nextBtn = st.nextBtn ∧
    (run st evs).carouselListeners = st.carouselListeners ∧
    (run st evs).nextClosureId = st.nextClosureId ∧
    pagListeners (run st evs) = pagListeners st ∧
    (run st evs).slides.length = st.slides.length := by
  induction evs generalizing st with
  | nil => exact ⟨rfl, rfl, rfl, rfl, rfl, rfl, rfl⟩
  | cons e rest ih =>
    rw [List.all_cons, Bool.and_eq_true] at hevs
    obtain ⟨s1, s2, s3, s4, s5, s6, s7⟩ := step_preserves_wiring st e hevs.1
    obtain ⟨r1, r2, r3, r4, r5, r6, r7⟩ := ih (step st e) hevs.2
    exact ⟨r1.trans s1, r2.trans s2, r3.trans s3, r4.trans s4, r5.trans s5,
      r6.trans s6, r7.trans s7⟩

/-! ### `destroy` in split form -/

/-- The listener removals of `destroy` before its autoplay branch: previous
and next buttons and the container `keydown`. -/
def destroyBase (st : State) : State :=
  { st with
    prevBtn := st.prevBtn.map (fun hs => removeListener hs .prevClick),
    nextBtn := st.nextBtn.map (fun hs => removeListener hs .nextClick),
    carouselListeners := removeListener st.carouselListeners .keyboardNav }

/-- `destroyBase` plus the pagination branch of `destroy` (whose per-button
removal uses a freshly allocated closure). -/
def destroyCore (st : State) : State :=
  if st.cfg.enablePagination then
    match st.paginationContainer with
    | none => destroyBase st
    | some btns =>
      { destroyBase st with
        paginationContainer :=
          some (mapIdxFrom (fun i b =>
            { b with
              listeners :=
                removeListener b.listeners
                  (Handler.paginationClick i (st.nextClosureId + i)) }) 0 btns),
        nextClosureId := st.nextClosureId + btns.length }
  else destroyBase st

theorem destroy_split (st : State) :
    destroy st =
      if autoplayGuard st.cfg then
        stopAutoplay { destroyCore st with
          carouselListeners :=
            removeListener (removeListener (destroyCore st).carouselListeners .mouseEnter)
              .mouseLeave }
      else destroyCore st := by
  unfold destroy destroyCore destroyBase
  dsimp only
  cases hpg : st.cfg.enablePagination <;> cases hpc : st.paginationContainer <;>
    by_cases hg : st.cfg.enableAutoplay = true <;>
      simp_all [autoplayGuard]

theorem destroyCore_frame (st : State) :
    (destroyCore st).cfg = st.cfg ∧
    (destroyCore st).currentSlideIndex = st.currentSlideIndex ∧
    (destroyCore st).slides = st.slides ∧
    (destroyCore st).prevBtn = st.prevBtn.map (fun hs => removeListener hs .prevClick) ∧
    (destroyCore st).nextBtn = st.nextBtn.map (fun hs => removeListener hs .nextClick) ∧
    (destroyCore st).carouselListeners = removeListener st.carouselListeners .keyboardNav ∧
    (destroyCore st).autoplayTimer = st.autoplayTimer ∧
    (destroyCore st).activeTimers = st.activeTimers ∧
    (destroyCore st).nextTimerId = st.nextTimerId := by
  unfold destroyCore destroyBase
  split
  · split <;> exact ⟨rfl, rfl, rfl, rfl, rfl, rfl, rfl, rfl, rfl⟩
  · exact ⟨rfl, rfl, rfl, rfl, rfl, rfl, rfl, rfl, rfl⟩

theorem destroy_frame (st : State) :
    (destroy st).cfg = st.cfg ∧
    (destroy st).currentSlideIndex = st.currentSlideIndex ∧
    (destroy st).slides = st.slides ∧
    (destroy st).prevBtn = st.prevBtn.map (fun hs => removeListener hs .prevClick) ∧
    (destroy st).nextBtn = st.nextBtn.map (fun hs => removeListener hs .nextClick) := by
  obtain ⟨c1, c2, c3, c4, c5, c6, c7, c8, c9⟩ := destroyCore_frame st
  rw [destroy_split]
  split
  · obtain ⟨s1, s2, s3, s4, s5, s6, s7, s8, s9, s10, s11, s12⟩ := stopAutoplay_frame
      { destroyCore st with
        carouselListeners :=
          removeListener (removeListener (destroyCore st).carouselListeners .mouseEnter)
            .mouseLeave }
    exact ⟨s1.trans c1, s10.trans c2, s12.trans c3, s2.trans c4, s3.trans c5⟩
  · exact ⟨c1, c2, c3, c4, c5⟩

theorem destroy_carouselListeners (st : State) :
    (destroy st).carouselListeners =
      if autoplayGuard st.cfg then
        removeListener
          (removeListener (removeListener st.carouselListeners .keyboardNav) .mouseEnter)
          .mouseLeave
      else removeListener st.carouselListeners .keyboardNav := by
  obtain ⟨c1, c2, c3, c4, c5, c6, c7, c8, c9⟩ := destroyCore_frame st
  rw [destroy_split]
  split
  · obtain ⟨s1, s2, s3, s4, s5, s6, s7, s8, s9, s10, s11, s12⟩ := stopAutoplay_frame
      { destroyCore st with
        carouselListeners :=
          removeListener (removeListener (destroyCore st).carouselListeners .mouseEnter)
            .mouseLeave }
    rw [s4]
    show removeListener (removeListener (destroyCore st).carouselListeners .mouseEnter)
      .mouseLeave = _
    rw [c6]
  · exact c6

theorem destroy_activeTimers_nil (st : State)
    (hD : st.activeTimers = [] ∨ ∃ t, st.autoplayTimer = some t ∧ st.activeTimers = [t])
    (hg : autoplayGuard st.cfg = true) :
    (destroy st).activeTimers = [] := by
  obtain ⟨c1, c2, c3, c4, c5, c6, c7, c8, c9⟩ := destroyCore_frame st
  rw [destroy_split, if_pos hg]
  set W : State := { destroyCore st with
    carouselListeners :=
      removeListener (removeListener (destroyCore st).carouselListeners .mouseEnter)
        .mouseLeave } with hW
  have hWt : W.autoplayTimer = st.autoplayTimer := c7
  have hWa : W.activeTimers = st.activeTimers := c8
  rcases hD with h | ⟨t, ht, hts⟩
  · cases ht : st.autoplayTimer with
    | none =>
      rw [stopAutoplay_none W (hWt.trans ht)]
      exact hWa.trans h
    | some t =>
      rw [stopAutoplay_some W t (hWt.trans ht), hWa, h]
      rfl
  · rw [stopAutoplay_some W t (hWt.trans ht), hWa, hts]
    simp

theorem destroy_activeTimers_no_autoplay (st : State)
    (hg : autoplayGuard st.cfg = false) :
    (destroy st).activeTimers = st.activeTimers := by
  rw [destroy_split, if_neg (by simp [hg])]
  exact (destroyCore_frame st).2.2.2.2.2.2.2.1

theorem destroy_paginationContainer_of_pag (st : State) (btns : List PaginationBtn)
    (hpg : st.cfg.enablePagination = true) (hpc : st.paginationContainer = some btns) :
    (destroy st).paginationContainer =
      some (mapIdxFrom (fun i b =>
        { b with
          listeners :=
            removeListener b.listeners
              (Handler.paginationClick i (st.nextClosureId + i)) }) 0 btns) := by
  have hcore : (destroyCore st).paginationContainer =
      some (mapIdxFrom (fun i b =>
        { b with
          listeners :=
            removeListener b.listeners
              (Handler.paginationClick i (st.nextClosureId + i)) }) 0 btns) := by
    unfold destroyCore
    rw [if_pos hpg, hpc]
  rw [destroy_split]
  split
  · obtain ⟨s1, s2, s3, s4, s5, s6, s7, s8, s9, s10, s11, s12⟩ := stopAutoplay_frame
      { destroyCore st with
        carouselListeners :=
          removeListener (removeListener (destroyCore st).carouselListeners .mouseEnter)
            .mouseLeave }
    rw [s11]
    exact hcore
  · exact hcore

/-! ### The at-most-one-active-timer invariant -/

/-- The autoplay-timer invariant, relative to the pointer position `inside`:
the two hover listeners are registered together; while the pointer is inside
(and the hover wiring is live) no timer is active; and the active timers are
either none or exactly the one stored in `autoplayTimer`. -/
def TimerInv (inside : Bool) (st : State) : Prop :=
  ((Handler.mouseLeave ∈ st.carouselListeners) ↔ (Handler.mouseEnter ∈ st.carouselListeners)) ∧
  (inside = true → Handler.mouseLeave ∈ st.carouselListeners → st.activeTimers = []) ∧
  (st.activeTimers = [] ∨ ∃ t, st.autoplayTimer = some t ∧ st.activeTimers = [t])

theorem TimerInv_length (inside : Bool) (st : State) (h : TimerInv inside st) :
    st.activeTimers.length ≤ 1 := by
  rcases h.2.2 with h | ⟨t, _, h⟩ <;> simp [h]

theorem stopAutoplay_activeTimers_nil (st : State)
    (hD : st.activeTimers = [] ∨ ∃ t, st.autoplayTimer = some t ∧ st.activeTimers = [t]) :
    (stopAutoplay st).activeTimers = [] := by
  rcases hD with h | ⟨t, ht, hts⟩
  · cases ht : st.autoplayTimer with
    | none => rw [stopAutoplay_none st ht]; exact h
    | some t => rw [stopAutoplay_some st t ht, h]; rfl
  · rw [stopAutoplay_some st t ht, hts]
    simp

theorem TimerInv_step (st : State) (e : Event) (inside : Bool)
    (hI : TimerInv inside st) (hne : e ≠ Event.create)
    (hLeave : e = Event.mouseLeave → inside = true) :
    TimerInv (insideAfterEv inside e) (step st e) := by
  obtain ⟨hB, hC, hD⟩ := hI
  have generic : ∀ (hw : (step st e).carouselListeners = st.carouselListeners)
      (ht1 : (step st e).autoplayTimer = st.autoplayTimer)
      (ht2 : (step st e).activeTimers = st.activeTimers)
      (hins : insideAfterEv inside e = inside),
      TimerInv (insideAfterEv inside e) (step st e) := by
    intro hw ht1 ht2 hins
    rw [hins]
    refine ⟨by rw [hw]; exact hB, ?_, ?_⟩
    · intro h1 h2
      rw [ht2]
      exact hC h1 (by rw [hw] at h2; exact h2)
    · rw [ht1, ht2]
      exact hD
  cases e with
  | create => exact absurd rfl hne
  | mouseEnter =>
    by_cases h : Handler.mouseEnter ∈ st.carouselListeners
    · have hstep : step st .mouseEnter = stopAutoplay st := by
        simp [step, h, handleMouseEnter]
      have hnil : (stopAutoplay st).activeTimers = [] := stopAutoplay_activeTimers_nil st hD
      rw [show insideAfterEv inside .mouseEnter = true from rfl, hstep]
      obtain ⟨s1, s2, s3, s4, s5, s6, s7, s8, s9, s10, s11, s12⟩ := stopAutoplay_frame st
      exact ⟨by rw [s4]; exact hB, fun _ _ => hnil, Or.inl hnil⟩
    · have hstep : step st .mouseEnter = st := by simp [step, h]
      rw [show insideAfterEv inside .mouseEnter = true from rfl, hstep]
      refine ⟨hB, ?_, hD⟩
      intro _ hmem
      exact absurd (hB.mp hmem) h
  | mouseLeave =>
    have hin : inside = true := hLeave rfl
    by_cases h : Handler.mouseLeave ∈ st.carouselListeners
    · have hstep : step st .mouseLeave = startAutoplay st := by
        simp [step, h, handleMouseLeave]
      have hnil : st.activeTimers = [] := hC hin h
      rw [show insideAfterEv inside .mouseLeave = false from rfl, hstep]
      refine ⟨hB, fun hfalse _ => Bool.noConfusion hfalse, ?_⟩
      refine Or.inr ⟨st.nextTimerId, rfl, ?_⟩
      show st.activeTimers ++ [st.nextTimerId] = [st.nextTimerId]
      rw [hnil]
      rfl
    · have hstep : step st .mouseLeave = st := by simp [step, h]
      rw [show insideAfterEv inside .mouseLeave = false from rfl, hstep]
      exact ⟨hB, fun hfalse _ => Bool.noConfusion hfalse, hD⟩
  | destroy =>
    rw [show insideAfterEv inside .destroy = inside from rfl,
      show step st .destroy = destroy st from rfl]
    obtain ⟨c1, c2, c3, c4, c5, c6, c7, c8, c9⟩ := destroyCore_frame st
    rw [destroy_split]
    by_cases hg : autoplayGuard st.cfg = true
    · rw [if_pos hg]
      set W : State := { destroyCore st with
        carouselListeners :=
          removeListener (removeListener (destroyCore st).carouselListeners .mouseEnter)
            .mouseLeave } with hW
      have hWnil : (stopAutoplay W).activeTimers = [] := by
        apply stopAutoplay_activeTimers_nil
        have hWt : W.autoplayTimer = st.autoplayTimer := c7
        have hWa : W.activeTimers = st.activeTimers := c8
        rw [hWt, hWa]
        exact hD
      obtain ⟨s1, s2, s3, s4, s5, s6, s7, s8, s9, s10, s11, s12⟩ := stopAutoplay_frame W
      refine ⟨?_, fun _ _ => hWnil, Or.inl hWnil⟩
      rw [s4]
      show (Handler.mouseLeave ∈ removeListener (removeListener _ .mouseEnter) .mouseLeave) ↔
        (Handler.mouseEnter ∈ removeListener (removeListener _ .mouseEnter) .mouseLeave)
      simp [mem_removeListener]
    · rw [if_neg hg]
      refine ⟨?_, ?_, ?_⟩
      · rw [c6]
        simp only [mem_removeListener]
        constructor
        · rintro ⟨h1, -⟩
          exact ⟨hB.mp h1, by simp⟩
        · rintro ⟨h1, -⟩
          exact ⟨hB.mpr h1, by simp⟩
      · intro h1 h2
        rw [c8]
        rw [c6, mem_removeListener] at h2
        exact hC h1 h2.1
      · rw [c7, c8]
        exact hD
  | tick t =>
    exact generic (step_preserves_wiring st (.tick t) rfl).2.2.2.1
      (step_preserves_timers st (.tick t) rfl (by simp) (by simp)).1
      (step_preserves_timers st (.tick t) rfl (by simp) (by simp)).2.1 rfl
  | keydown ke =>
    exact generic (step_preserves_wiring st (.keydown ke) rfl).2.2.2.1
      (step_preserves_timers st (.keydown ke) rfl (by simp) (by simp)).1
      (step_preserves_timers st (.keydown ke) rfl (by simp) (by simp)).2.1 rfl
  | prevClick =>
    exact generic (step_preserves_wiring st .prevClick rfl).2.2.2.1
      (step_preserves_timers st .prevClick rfl (by simp) (by simp)).1
      (step_preserves_timers st .prevClick rfl (by simp) (by simp)).2.1 rfl
  | nextClick =>
    exact generic (step_preserves_wiring st .nextClick rfl).2.2.2.1
      (step_preserves_timers st .nextClick rfl (by simp) (by simp)).1
      (step_preserves_timers st .nextClick rfl (by simp) (by simp)).2.1 rfl
  | paginationClick k =>
    exact generic (step_preserves_wiring st (.paginationClick k) rfl).2.2.2.1
      (step_preserves_timers st (.paginationClick k) rfl (by simp) (by simp)).1
      (step_preserves_timers st (.paginationClick k) rfl (by simp) (by simp)).2.1 rfl

theorem hoverOk_cons (inside : Bool) (e : Event) (evs : List Event)
    (h : hoverOk inside (e :: evs) = true) :
    (e = Event.mouseEnter → inside = false) ∧ (e = Event.mouseLeave → inside = true) ∧
      hoverOk (insideAfterEv inside e) evs = true := by
  cases e <;>
    simp_all [hoverOk, insideAfterEv, Bool.and_eq_true, Bool.not_eq_true']

/-- Along any `create`-free, hover-disciplined trace from a state satisfying
the timer invariant, every intermediate state has at most one active timer. -/
theorem TimerInv_run_prefix (st : State) (evs : List Event) (inside : Bool)
    (hI : TimerInv inside st) (hhov : hoverOk inside evs = true)
    (hnc : evs.all notCreateEv = true) :
    ∀ p q, evs = p ++ q → (run st p).activeTimers.length ≤ 1 := by
  induction evs generalizing st inside with
  | nil =>
    intro p q hpq
    obtain rfl : p = [] := by
      cases p with
      | nil => rfl
      | cons a as => exact absurd hpq (by simp)
    exact TimerInv_length inside st hI
  | cons e rest ih =>
    intro p q hpq
    cases p with
    | nil => exact TimerInv_length inside st hI
    | cons p0 ps =>
      rw [List.cons_append] at hpq
      obtain ⟨rfl, hpq'⟩ : e = p0 ∧ rest = ps ++ q := by
        injection hpq with h1 h2
        exact ⟨h1, h2⟩
      rw [List.all_cons, Bool.and_eq_true] at hnc
      have hne : e ≠ Event.create := by
        intro hcr
        rw [hcr] at hnc
        simp [notCreateEv] at hnc
      obtain ⟨hEnter, hLeave, hhov'⟩ := hoverOk_cons inside e rest hhov
      have hI' := TimerInv_step st e inside hI hne hLeave
      exact ih (step st e) (insideAfterEv inside e) hI' hhov' hnc.2 ps q hpq'

/-- What `create` on a fresh instance does to wiring and timers, as a function
of the configuration. -/
theorem create_init_frame (cfg : Config) (slides₀ : List Slide) :
    (create (initState cfg slides₀)).cfg = cfg ∧
    (create (initState cfg slides₀)).carouselListeners =
      (if autoplayGuard cfg then
        [Handler.keyboardNav, Handler.mouseEnter, Handler.mouseLeave]
       else [Handler.keyboardNav]) ∧
    (create (initState cfg slides₀)).prevBtn =
      (if cfg.enableNextPrevious then some [Handler.prevClick] else none) ∧
    (create (initState cfg slides₀)).nextBtn =
      (if cfg.enableNextPrevious then some [Handler.nextClick] else none) ∧
    (create (initState cfg slides₀)).autoplayTimer =
      (if autoplayGuard cfg then some 0 else none) ∧
    (create (initState cfg slides₀)).activeTimers =
      (if autoplayGuard cfg then [0] else []) ∧
    (create (initState cfg slides₀)).nextTimerId =
      (if autoplayGuard cfg then 1 else 0) ∧
    (create (initState cfg slides₀)).currentSlideIndex = 0 := by
  have hcfg : (attachEventListeners (tweakStructure (initState cfg slides₀))).cfg = cfg := by
    rw [attachEventListeners_eq]
    split <;> rfl
  rw [create_eq, hcfg, attachEventListeners_eq, tweakStructure_init]
  by_cases hg : autoplayGuard cfg = true <;>
    by_cases hnp : cfg.enableNextPrevious = true <;>
      simp [hg, hnp, autoplayGuard, addListener, startAutoplay] <;>
        simp_all [autoplayGuard]

/-! ### Remaining helper lemmas -/

theorem attachEventListeners_slides (st : State) :
    (attachEventListeners st).slides = st.slides := by
  rw [attachEventListeners_eq]
  split <;> rfl

theorem create_init_slides_length (cfg : Config) (slides₀ : List Slide) :
    (create (initState cfg slides₀)).slides.length = slides₀.length := by
  rw [create_eq]
  split
  · show (attachEventListeners (tweakStructure (initState cfg slides₀))).slides.length = _
    rw [attachEventListeners_slides]
    show (tweakSlides cfg.enablePagination 0 0 slides₀).1.length = _
    rw [tweakSlides_fst_length]
  · rw [attachEventListeners_slides]
    show (tweakSlides cfg.enablePagination 0 0 slides₀).1.length = _
    rw [tweakSlides_fst_length]

theorem run_create_slides_length (cfg : Config) (slides₀ : List Slide) (evs : List Event)
    (hevs : evs.all isTransitionEv = true) :
    (run (create (initState cfg slides₀)) evs).slides.length = slides₀.length := by
  have h1 := (run_preserves_wiring (create (initState cfg slides₀)) evs hevs).2.2.2.2.2.2
  rw [h1, create_init_slides_length]

theorem iterate_next_index (st : State) (hc : st.currentSlideIndex < st.slides.length) :
    ∀ k : Nat,
      ((fun s => moveSlide s .next)^[k] st).currentSlideIndex =
        (st.currentSlideIndex + k) % st.slides.length ∧
      ((fun s => moveSlide s .next)^[k] st).slides.length = st.slides.length := by
  intro k
  induction k with
  | zero => simpa using (Nat.mod_eq_of_lt hc).symm
  | succ k ih =>
    rw [Function.iterate_succ_apply']
    obtain ⟨h1, h2⟩ := ih
    refine ⟨?_, ((moveSlide_frame _ .next).1).trans h2⟩
    rw [moveSlide_next_index, h1, h2]
    unfold nextIndex
    rw [Nat.mod_add_mod, Nat.add_assoc]

theorem iterate_prev_index (st : State) (hc : st.currentSlideIndex < st.slides.length) :
    ∀ k : Nat,
      ((fun s => moveSlide s .prev)^[k] st).currentSlideIndex =
        (st.currentSlideIndex + k * (st.slides.length - 1)) % st.slides.length ∧
      ((fun s => moveSlide s .prev)^[k] st).slides.length = st.slides.length := by
  have hn : 0 < st.slides.length := Nat.lt_of_le_of_lt (Nat.zero_le _) hc
  intro k
  induction k with
  | zero => simpa using (Nat.mod_eq_of_lt hc).symm
  | succ k ih =>
    rw [Function.iterate_succ_apply']
    obtain ⟨h1, h2⟩ := ih
    refine ⟨?_, ((moveSlide_frame _ .prev).1).trans h2⟩
    rw [moveSlide_prev_index, h1, h2, prevIndex_eq _ _ (Nat.mod_lt _ hn),
      Nat.mod_add_mod, Nat.succ_mul, Nat.add_assoc]

/-- Shared concrete fixtures for the claim witnesses. -/
def cfgW : Config := {}

def cfgNoAuto : Config := { enableAutoplay := false }

def slidesW : List Slide := [{}, {}, {}]

/-! ### Claim theorems -/

/-- C2: `moveSlide` computes "next" as `(current + 1) mod count` and
"previous" as `(current − 1 + count) mod count` (equivalently
`(current + (count − 1)) mod count` for an in-range index), and iterating
either operation `count` times returns any in-range starting index to
itself. -/
theorem c2_circular_index_arithmetic (st : State)
    (hc : st.currentSlideIndex < st.slides.length) :
    (moveSlide st .next).currentSlideIndex =
      (st.currentSlideIndex + 1) % st.slides.length ∧
    (moveSlide st .prev).currentSlideIndex =
      (((st.currentSlideIndex : Int) - 1 + (st.slides.length : Int)) %
        (st.slides.length : Int)).toNat ∧
    (moveSlide st .prev).currentSlideIndex =
      (st.currentSlideIndex + (st.slides.length - 1)) % st.slides.length ∧
    ((fun s => moveSlide s .next)^[st.slides.length] st).currentSlideIndex =
      st.currentSlideIndex ∧
    ((fun s => moveSlide s .prev)^[st.slides.length] st).currentSlideIndex =
      st.currentSlideIndex := by
  refine ⟨moveSlide_next_index st, moveSlide_prev_index st, ?_, ?_, ?_⟩
  · rw [moveSlide_prev_index, prevIndex_eq _ _ hc]
  · rw [(iterate_next_index st hc st.slides.length).1, Nat.add_mod_right,
      Nat.mod_eq_of_lt hc]
  · rw [(iterate_prev_index st hc st.slides.length).1, Nat.mul_comm,
      Nat.add_mul_mod_self_right, Nat.mod_eq_of_lt hc]

theorem c2_circular_index_arithmetic_witness :
    ((fun s => moveSlide s Direction.next)^[3] (initState cfgW slidesW)).currentSlideIndex
      = 0 ∧
    ((fun s => moveSlide s Direction.prev)^[3] (initState cfgW slidesW)).currentSlideIndex
      = 0 ∧
    (moveSlide (initState cfgW slidesW) Direction.prev).currentSlideIndex = 2 := by
  have h := c2_circular_index_arithmetic (initState cfgW slidesW) (by decide)
  exact ⟨h.2.2.2.1, h.2.2.2.2, h.2.2.1⟩

/-- C4: the factory returns `none` (after emitting exactly one diagnostic)
precisely when the container lookup fails or the slide lookup returns zero
elements; otherwise it returns the instance handle (the state on which
`create`/`destroy` operate) and no diagnostic. -/
theorem c4_factory_validation (cfg : Config) (dom : Dom) :
    ((JSCarousel cfg dom).1 = none ↔
      dom.carouselFound = false ∨ dom.slides.length = 0) ∧
    ((JSCarousel cfg dom).1 = none → (JSCarousel cfg dom).2.length = 1) ∧
    ((JSCarousel cfg dom).1 ≠ none →
      (JSCarousel cfg dom).1 = some (initState cfg dom.slides) ∧
      (JSCarousel cfg dom).2 = []) := by
  unfold JSCarousel
  cases hcf : dom.carouselFound with
  | false => simp
  | true => by_cases hs : dom.slides.length = 0 <;> simp [hs]

theorem c4_factory_validation_witness :
    (JSCarousel cfgW { carouselFound := false, slides := slidesW }).1 = none ∧
    (JSCarousel cfgW { carouselFound := true, slides := [] }).1 = none ∧
    (JSCarousel cfgW { carouselFound := false, slides := slidesW }).2.length = 1 ∧
    (JSCarousel cfgW { carouselFound := true, slides := slidesW }).1 =
      some (initState cfgW slidesW) ∧
    (JSCarousel cfgW { carouselFound := true, slides := slidesW }).2 = [] := by
  have h1 := c4_factory_validation cfgW { carouselFound := false, slides := slidesW }
  have h2 := c4_factory_validation cfgW { carouselFound := true, slides := ([] : List Slide) }
  have h3 := c4_factory_validation cfgW { carouselFound := true, slides := slidesW }
  refine ⟨h1.1.mpr (Or.inl rfl), h2.1.mpr (Or.inr rfl),
    h1.2.1 (h1.1.mpr (Or.inl rfl)), ?_, ?_⟩
  · exact (h3.2.2 (by decide)).1
  · exact (h3.2.2 (by decide)).2

/-- C9: the keydown handler is inert when the event's target is outside the
container or the default action was already prevented; otherwise ArrowLeft
moves to the previous slide and ArrowRight to the next, suppressing the
default action, and every other key changes nothing and suppresses nothing. -/
theorem c9_keyboard_navigation (st : State) (e : KeyEvent) :
    (e.targetInCarousel = false → handleKeyboardNav st e = (st, false)) ∧
    (e.defaultPrevented = true → handleKeyboardNav st e = (st, false)) ∧
    (e.targetInCarousel = true → e.defaultPrevented = false → e.key = "ArrowLeft" →
      handleKeyboardNav st e = (moveSlide st .prev, true)) ∧
    (e.targetInCarousel = true → e.defaultPrevented = false → e.key = "ArrowRight" →
      handleKeyboardNav st e = (moveSlide st .next, true)) ∧
    (e.targetInCarousel = true → e.defaultPrevented = false → e.key ≠ "ArrowLeft" →
      e.key ≠ "ArrowRight" → handleKeyboardNav st e = (st, false)) := by
  unfold handleKeyboardNav
  refine ⟨?_, ?_, ?_, ?_, ?_⟩
  · intro h1
    simp [h1]
  · intro h2
    cases ht : e.targetInCarousel <;> simp [ht, h2]
  · intro h1 h2 h3
    simp [h1, h2, h3]
  · intro h1 h2 h3
    simp [h1, h2, h3]
  · intro h1 h2 h3 h4
    simp [h1, h2, h3, h4]

theorem c9_keyboard_navigation_witness :
    handleKeyboardNav (initState cfgW slidesW) ⟨true, false, "ArrowRight"⟩ =
      (moveSlide (initState cfgW slidesW) .next, true) ∧
    handleKeyboardNav (initState cfgW slidesW) ⟨false, false, "ArrowRight"⟩ =
      (initState cfgW slidesW, false) ∧
    handleKeyboardNav (initState cfgW slidesW) ⟨true, true, "ArrowRight"⟩ =
      (initState cfgW slidesW, false) ∧
    handleKeyboardNav (initState cfgW slidesW) ⟨true, false, "Enter"⟩ =
      (initState cfgW slidesW, false) := by
  have h1 := c9_keyboard_navigation (initState cfgW slidesW) ⟨true, false, "ArrowRight"⟩
  have h2 := c9_keyboard_navigation (initState cfgW slidesW) ⟨false, false, "ArrowRight"⟩
  have h3 := c9_keyboard_navigation (initState cfgW slidesW) ⟨true, true, "ArrowRight"⟩
  have h4 := c9_keyboard_navigation (initState cfgW slidesW) ⟨true, false, "Enter"⟩
  exact ⟨h1.2.2.2.1 rfl rfl rfl, h2.1 rfl, h3.2.1 rfl,
    h4.2.2.2.2 rfl rfl (by decide) (by decide)⟩

theorem count_some_zero_offsets (n c : Nat) :
    ((List.range n).map
      (fun i : Nat => some (100 * ((i : Int) - (c : Int))))).count (some (0 : Int)) =
      if c < n then 1 else 0 := by
  induction n with
  | zero => simp
  | succ n ih =>
    rw [List.range_succ, List.map_append, List.count_append, ih]
    by_cases h2 : c = n
    · subst h2
      have h1 : ¬c < c := by omega
      have h3 : c < c + 1 := by omega
      simp [h1, h3]
    · have hne : some (100 * ((n : Int) - (c : Int))) ≠ some (0 : Int) := by
        intro h
        rw [Option.some.injEq] at h
        have hnc : (n : Int) = (c : Int) := by omega
        exact h2 ((by exact_mod_cast hnc : n = c)).symm
      have hzero : List.count (some (0 : Int))
          [some (100 * ((n : Int) - (c : Int)))] = 0 := by
        rw [List.count_eq_zero]
        simp only [List.mem_singleton]
        exact fun h => hne h.symm
      by_cases hcn : c < n
      · rw [if_pos hcn, if_pos (by omega : c < n + 1), List.map_singleton, hzero]
      · rw [if_neg hcn, if_neg (by omega : ¬c < n + 1), List.map_singleton, hzero]

theorem count_true_flags (n c : Nat) :
    ((List.range n).map (fun k => k == c)).count true = if c < n then 1 else 0 := by
  induction n with
  | zero => simp
  | succ n ih =>
    rw [List.range_succ, List.map_append, List.count_append, ih]
    by_cases h2 : c = n
    · subst h2
      have h1 : ¬c < c := by omega
      have h3 : c < c + 1 := by omega
      simp [h1, h3]
    · have hne : (n == c) = false := by
        simp only [beq_eq_false_iff_ne]
        omega
      have hzero : List.count true [(n == c)] = 0 := by
        rw [hne]
        decide
      by_cases hcn : c < n
      · rw [if_pos hcn, if_pos (by omega : c < n + 1), List.map_singleton, hzero]
      · rw [if_neg hcn, if_neg (by omega : ¬c < n + 1), List.map_singleton, hzero]

theorem offsetsOf_eq_of_Inv (cfg : Config) (st : State) (h : Inv cfg st) :
    offsetsOf st = (List.range st.slides.length).map
      (fun i : Nat => some (100 * ((i : Int) - (st.currentSlideIndex : Int)))) := by
  apply List.ext_getElem?
  intro i
  unfold offsetsOf
  by_cases hi : i < st.slides.length
  · rw [List.getElem?_map, List.getElem?_map, List.getElem?_range hi]
    obtain ⟨s, hs⟩ : ∃ s, st.slides[i]? = some s :=
      ⟨st.slides[i], List.getElem?_eq_getElem hi⟩
    rw [hs]
    simp [h.2.2.1 i s hs]
  · rw [List.getElem?_map, List.getElem?_map,
      List.getElem?_eq_none (Nat.le_of_not_lt hi),
      List.getElem?_eq_none (by simpa using Nat.le_of_not_lt hi)]
    rfl

theorem flags_eq_of_Inv (cfg : Config) (st : State) (h : Inv cfg st)
    (hp : cfg.enablePagination = true) :
    activeFlags st =
      (List.range st.slides.length).map (fun k => k == st.currentSlideIndex) ∧
    ariaFlags st =
      (List.range st.slides.length).map (fun k => k == st.currentSlideIndex) := by
  obtain ⟨btns, hpc, hlen, hcid, hbtns⟩ := h.2.2.2.1 hp
  constructor <;>
    · first
      | unfold activeFlags
      | unfold ariaFlags
      rw [hpc, Option.getD_some]
      apply List.ext_getElem?
      intro k
      by_cases hk : k < st.slides.length
      · have hk' : k < btns.length := by omega
        rw [List.getElem?_map, List.getElem?_map, List.getElem?_range hk,
          List.getElem?_eq_getElem hk']
        obtain ⟨h1, h2, h3⟩ := hbtns k btns[k] (List.getElem?_eq_getElem hk')
        simp [h2, h3]
      · have hk' : ¬k < btns.length := by omega
        rw [List.getElem?_map, List.getElem?_map,
          List.getElem?_eq_none (Nat.le_of_not_lt hk'),
          List.getElem?_eq_none (by simpa using Nat.le_of_not_lt hk)]
        rfl

/-- C1: after `create` on a fresh instance and after any sequence of
state-transition events, the list of inline slide offsets is exactly
`[100 % × (0 − c), …, 100 % × (n−1 − c)]` for the current index `c`; in
particular `c` is in range, exactly one slide has offset `0`, and it is the
slide at the current index. -/
theorem c1_positioning_law (cfg : Config) (slides₀ : List Slide) (evs : List Event)
    (h0 : slides₀ ≠ []) (hevs : evs.all isTransitionEv = true) :
    offsetsOf (run (create (initState cfg slides₀)) evs) =
      (List.range (run (create (initState cfg slides₀)) evs).slides.length).map
        (fun i : Nat => some (100 * ((i : Int) -
          ((run (create (initState cfg slides₀)) evs).currentSlideIndex : Int)))) ∧
    (run (create (initState cfg slides₀)) evs).currentSlideIndex <
      (run (create (initState cfg slides₀)) evs).slides.length ∧
    (offsetsOf (run (create (initState cfg slides₀)) evs)).count (some (0 : Int)) = 1 ∧
    (offsetsOf (run (create (initState cfg slides₀)) evs))[(run (create
      (initState cfg slides₀)) evs).currentSlideIndex]? = some (some (0 : Int)) := by
  have hInv := Inv_run cfg _ evs (Inv_create cfg slides₀ h0) hevs
  have hmap := offsetsOf_eq_of_Inv cfg _ hInv
  refine ⟨hmap, hInv.2.1, ?_, ?_⟩
  · rw [hmap, count_some_zero_offsets, if_pos hInv.2.1]
  · rw [hmap, List.getElem?_map, List.getElem?_range hInv.2.1]
    simp

theorem c1_positioning_law_witness :
    offsetsOf (run (create (initState cfgW slidesW)) [Event.nextClick]) =
      [some (-100), some 0, some 100] ∧
    (offsetsOf (run (create (initState cfgW slidesW)) [Event.nextClick])).count
      (some (0 : Int)) = 1 ∧
    (offsetsOf (run (create (initState cfgW slidesW)) [Event.nextClick]))[(run (create
      (initState cfgW slidesW)) [Event.nextClick]).currentSlideIndex]? =
        some (some (0 : Int)) := by
  have h := c1_positioning_law cfgW slidesW [Event.nextClick] (by decide) (by decide)
  refine ⟨?_, h.2.2.1, h.2.2.2⟩
  rw [h.1]
  decide

/-- C3: with pagination enabled, right after `create` the current index is 0
and pagination button 0 carries the active marker; after any sequence of
state-transition events the active-marker flags and the `aria-selected` flags
both mark exactly the button at the current slide index (so at most one — in
fact exactly one — button is active at any time). -/
theorem c3_pagination_active_invariant (cfg : Config) (slides₀ : List Slide)
    (evs : List Event) (hp : cfg.enablePagination = true) (h0 : slides₀ ≠ [])
    (hevs : evs.all isTransitionEv = true) :
    (create (initState cfg slides₀)).currentSlideIndex = 0 ∧
    (activeFlags (create (initState cfg slides₀)))[0]? = some true ∧
    activeFlags (run (create (initState cfg slides₀)) evs) =
      (List.range (run (create (initState cfg slides₀)) evs).slides.length).map
        (fun k => k == (run (create (initState cfg slides₀)) evs).currentSlideIndex) ∧
    ariaFlags (run (create (initState cfg slides₀)) evs) =
      (List.range (run (create (initState cfg slides₀)) evs).slides.length).map
        (fun k => k == (run (create (initState cfg slides₀)) evs).currentSlideIndex) ∧
    (activeFlags (run (create (initState cfg slides₀)) evs)).count true = 1 ∧
    (ariaFlags (run (create (initState cfg slides₀)) evs)).count true = 1 ∧
    (activeFlags (run (create (initState cfg slides₀)) evs))[(run (create
      (initState cfg slides₀)) evs).currentSlideIndex]? = some true := by
  have hInv0 := Inv_create cfg slides₀ h0
  have hInv := Inv_run cfg _ evs hInv0 hevs
  have hidx0 : (create (initState cfg slides₀)).currentSlideIndex = 0 :=
    (create_init_frame cfg slides₀).2.2.2.2.2.2.2
  obtain ⟨hact, haria⟩ := flags_eq_of_Inv cfg _ hInv hp
  obtain ⟨hact0, _⟩ := flags_eq_of_Inv cfg _ hInv0 hp
  have hn0 : 0 < (create (initState cfg slides₀)).slides.length := by
    rw [create_init_slides_length]
    exact List.length_pos.mpr h0
  refine ⟨hidx0, ?_, hact, haria, ?_, ?_, ?_⟩
  · rw [hact0, List.getElem?_map, List.getElem?_range hn0, hidx0]
    simp
  · rw [hact, count_true_flags, if_pos hInv.2.1]
  · rw [haria, count_true_flags, if_pos hInv.2.1]
  · rw [hact, List.getElem?_map, List.getElem?_range hInv.2.1]
    simp

theorem c3_pagination_active_invariant_witness :
    activeFlags (run (create (initState cfgNoAuto slidesW))
      [Event.nextClick, Event.nextClick]) = [false, false, true] ∧
    (activeFlags (run (create (initState cfgNoAuto slidesW))
      [Event.nextClick, Event.nextClick])).count true = 1 ∧
    (activeFlags (create (initState cfgNoAuto slidesW)))[0]? = some true := by
  have h := c3_pagination_active_invariant cfgNoAuto slidesW
    [Event.nextClick, Event.nextClick] (by decide) (by decide) (by decide)
  refine ⟨?_, h.2.2.2.2.1, h.2.1⟩
  rw [h.2.2.1]
  decide

def slidesA : List Slide := [{ anims := [{ paused := true, time := 7 }] }, {}]

/-- C5: in any state reached by `create` and transition events with pagination
enabled, clicking pagination button `k` fires exactly the closure over the
index captured when the button was created, so the click equals
`handlePaginationBtnClick k` and sets the current index to `k`
unconditionally (including `k` equal to the current index); moreover slide
`k` ends at offset 0 with every one of its animations reset to time 0 and
playing (the enter animation is restarted). -/
theorem c5_pagination_button_click (cfg : Config) (slides₀ : List Slide)
    (evs : List Event) (k : Nat) (hp : cfg.enablePagination = true)
    (h0 : slides₀ ≠ []) (hevs : evs.all isTransitionEv = true)
    (hk : k < slides₀.length) :
    step (run (create (initState cfg slides₀)) evs) (.paginationClick k) =
      handlePaginationBtnClick (run (create (initState cfg slides₀)) evs) k ∧
    (step (run (create (initState cfg slides₀)) evs)
      (.paginationClick k)).currentSlideIndex = k ∧
    (∀ s : Slide, (run (create (initState cfg slides₀)) evs).slides[k]? = some s →
      (step (run (create (initState cfg slides₀)) evs) (.paginationClick k)).slides[k]? =
        some { offset := some 0,
               anims := s.anims.map (fun _ => { paused := false, time := 0 }) }) := by
  have hInv := Inv_run cfg _ evs (Inv_create cfg slides₀ h0) hevs
  set st := run (create (initState cfg slides₀)) evs with hst
  obtain ⟨btns, hpc, hlen, hcid, hbtns⟩ := hInv.2.2.2.1 hp
  have hlen' : st.slides.length = slides₀.length :=
    run_create_slides_length cfg slides₀ evs hevs
  have hkst : k < st.slides.length := by omega
  have hkb : k < btns.length := by omega
  have hbk := hbtns k btns[k] (List.getElem?_eq_getElem hkb)
  have hstep : step st (.paginationClick k) = handlePaginationBtnClick st k := by
    simp [step, hpc, List.getElem?_eq_getElem hkb, hbk.1, fireOn]
  have hA : handlePaginationBtnClick st k =
      adjustSlidePosition { st with
        currentSlideIndex := k,
        paginationContainer := some (modifyAt setActive k (btns.map clearActive)) } := by
    show updateCarouselState { st with currentSlideIndex := k } = _
    rw [updateCarouselState_eq]
    have hcp : ({ st with currentSlideIndex := k } : State).cfg.enablePagination = true := by
      rw [show ({ st with currentSlideIndex := k } : State).cfg = cfg from hInv.1]
      exact hp
    rw [if_pos hcp, updatePaginationBtns_some { st with currentSlideIndex := k } btns hpc]
  refine ⟨hstep, ?_, ?_⟩
  · rw [hstep, handlePaginationBtnClick_index]
  · intro s hs
    rw [hstep, hA, adjustSlidePosition_slides_getElem?]
    rw [show ({ st with
        currentSlideIndex := k,
        paginationContainer :=
          some (modifyAt setActive k (btns.map clearActive)) } : State).slides[k]? =
      some s from hs]
    show some _ = some _
    rw [Option.some.injEq]
    show (if k = k then playAnims _ else _) = _
    rw [if_pos rfl]
    show playAnims { (if k = k then resetAnims (pauseAnims s) else pauseAnims s) with
      offset := some (100 * ((k : Int) - (k : Int))) } = _
    rw [if_pos rfl]
    unfold playAnims resetAnims pauseAnims
    simp [List.map_map, Function.comp]
    show s.anims.map (fun _ => ({ paused := false, time := 0 } : AnimState)) =
      List.replicate s.anims.length { paused := false, time := 0 }
    simp

theorem c5_pagination_button_click_witness :
    (step (run (create (initState cfgNoAuto slidesW)) [Event.nextClick])
      (Event.paginationClick 1)).currentSlideIndex = 1 ∧
    (step (create (initState cfgNoAuto slidesW))
      (Event.paginationClick 0)).currentSlideIndex = 0 ∧
    (step (create (initState cfgNoAuto slidesA))
      (Event.paginationClick 0)).slides[0]? =
      some { offset := some 0, anims := [{ paused := false, time := 0 }] } := by
  have h1 := c5_pagination_button_click cfgNoAuto slidesW [Event.nextClick] 1
    (by decide) (by decide) (by decide) (by decide)
  have h2 := c5_pagination_button_click cfgNoAuto slidesW [] 0
    (by decide) (by decide) (by decide) (by decide)
  have h3 := c5_pagination_button_click cfgNoAuto slidesA [] 0
    (by decide) (by decide) (by decide) (by decide)
  exact ⟨h1.2.1, h2.2.1,
    h3.2.2 { offset := some 0, anims := [{ paused := true, time := 7 }] } (by decide)⟩

theorem TimerInv_create_init (cfg : Config) (slides₀ : List Slide) :
    TimerInv false (create (initState cfg slides₀)) := by
  obtain ⟨f1, f2, f3, f4, f5, f6, f7, f8⟩ := create_init_frame cfg slides₀
  by_cases hg : autoplayGuard cfg = true
  · refine ⟨?_, fun hfalse _ => Bool.noConfusion hfalse, ?_⟩
    · rw [f2, if_pos hg]
      simp
    · refine Or.inr ⟨0, ?_, ?_⟩
      · rw [f5, if_pos hg]
      · rw [f6, if_pos hg]
  · refine ⟨?_, fun hfalse _ => Bool.noConfusion hfalse, Or.inl ?_⟩
    · rw [f2, if_neg hg]
      simp
    · rw [f6, if_neg hg]

theorem attachEventListeners_cfg (st : State) :
    (attachEventListeners st).cfg = st.cfg := by
  rw [attachEventListeners_eq]
  split <;> rfl

theorem create_cfg (st : State) : (create st).cfg = st.cfg := by
  rw [create_eq]
  split
  · show (attachEventListeners (tweakStructure st)).cfg = st.cfg
    exact attachEventListeners_cfg (tweakStructure st)
  · exact attachEventListeners_cfg (tweakStructure st)

theorem attachEventListeners_timers (st : State) :
    (attachEventListeners st).autoplayTimer = st.autoplayTimer ∧
    (attachEventListeners st).activeTimers = st.activeTimers ∧
    (attachEventListeners st).nextTimerId = st.nextTimerId := by
  rw [attachEventListeners_eq]
  split <;> exact ⟨rfl, rfl, rfl⟩

/-- Effect of `create` on the timer bookkeeping when autoplay is enabled:
`startAutoplay` allocates the next interval id, adds it to the active set
(without cancelling anything) and overwrites the stored handle. -/
theorem create_timers (st : State) (hg : autoplayGuard st.cfg = true) :
    (create st).autoplayTimer = some st.nextTimerId ∧
    (create st).activeTimers = st.activeTimers ++ [st.nextTimerId] ∧
    (create st).nextTimerId = st.nextTimerId + 1 := by
  obtain ⟨a1, a2, a3⟩ := attachEventListeners_timers (tweakStructure st)
  rw [create_eq,
    if_pos (by rw [attachEventListeners_cfg]
               show autoplayGuard st.cfg = true
               exact hg)]
  refine ⟨?_, ?_, ?_⟩
  · show some (attachEventListeners (tweakStructure st)).nextTimerId = _
    rw [a3]
    rfl
  · show (attachEventListeners (tweakStructure st)).activeTimers ++
      [(attachEventListeners (tweakStructure st)).nextTimerId] = _
    rw [a2, a3]
    rfl
  · show (attachEventListeners (tweakStructure st)).nextTimerId + 1 = _
    rw [a3]
    rfl

/-- C7 counterexample: the claim "at most one autoplay timer is active for
every reachable sequence of events" fails on the code.  With the default
configuration (autoplay enabled), the event sequence `[create, create]` —
drawn from the claim's own event alphabet — invokes `startAutoplay` while the
first interval is still active; the handle is overwritten and two timers are
concurrently active. -/
theorem c7_single_timer_counterexample :
    (run (initState cfgW [{}]) [Event.create]).activeTimers = [0] ∧
    (startAutoplay (run (initState cfgW [{}]) [Event.create])).activeTimers = [0, 1] ∧
    (run (initState cfgW [{}]) [Event.create, Event.create]).activeTimers = [0, 1] ∧
    2 ≤ (run (initState cfgW [{}]) [Event.create, Event.create]).activeTimers.length := by
  decide

/-- C7 amended: along every trace that contains no further `create` and whose
pointer-enter/pointer-leave events alternate legally starting with the
pointer outside the container, at most one autoplay timer is active at every
point — in such traces `startAutoplay` only ever runs when no timer is
active, because pointer-enter cancelled it first. -/
theorem c7_amended_at_most_one_timer (cfg : Config) (slides₀ : List Slide)
    (evs : List Event) (hhov : hoverOk false evs = true)
    (hnc : evs.all notCreateEv = true) :
    ∀ p q, evs = p ++ q →
      (run (create (initState cfg slides₀)) p).activeTimers.length ≤ 1 :=
  TimerInv_run_prefix _ evs false (TimerInv_create_init cfg slides₀) hhov hnc

theorem c7_amended_at_most_one_timer_witness :
    (run (create (initState cfgW slidesW))
      [Event.mouseEnter, Event.mouseLeave, Event.tick 1]).activeTimers.length ≤ 1 := by
  have h := c7_amended_at_most_one_timer cfgW slidesW
    [Event.mouseEnter, Event.mouseLeave, Event.tick 1] (by decide) (by decide)
  exact h [Event.mouseEnter, Event.mouseLeave, Event.tick 1] [] (by simp)

/-- C8: the hover listeners are wired by `create` exactly when autoplay is
enabled; a tick of an active timer performs exactly the "next" transition, so
`N` consecutive ticks advance the index by `N mod count`; pointer-enter
cancels the stored timer, suppressing that timer's following tick; and
pointer-leave starts a fresh timer whose ticks fire "next" again. -/
theorem c8_autoplay_tick_semantics (cfg : Config) (slides₀ : List Slide) :
    ((Handler.mouseEnter ∈ (create (initState cfg slides₀)).carouselListeners ↔
        cfg.enableAutoplay = true) ∧
     (Handler.mouseLeave ∈ (create (initState cfg slides₀)).carouselListeners ↔
        cfg.enableAutoplay = true)) ∧
    (∀ (st : State) (t : Nat), t ∈ st.activeTimers →
      step st (.tick t) = moveSlide st .next) ∧
    (∀ (st : State) (t N : Nat), t ∈ st.activeTimers →
      st.currentSlideIndex < st.slides.length →
      (run st (List.replicate N (.tick t))).currentSlideIndex =
        (st.currentSlideIndex + N) % st.slides.length) ∧
    (∀ (st : State) (t : Nat), st.autoplayTimer = some t →
      Handler.mouseEnter ∈ st.carouselListeners →
      step (step st .mouseEnter) (.tick t) = step st .mouseEnter) ∧
    (∀ st : State, Handler.mouseLeave ∈ st.carouselListeners →
      st.nextTimerId ∈ (step st .mouseLeave).activeTimers ∧
      step (step st .mouseLeave) (.tick st.nextTimerId) =
        moveSlide (step st .mouseLeave) .next) := by
  have htick : ∀ (st : State) (t : Nat), t ∈ st.activeTimers →
      step st (.tick t) = moveSlide st .next := by
    intro st t ht
    simp [step, ht]
  refine ⟨?_, htick, ?_, ?_, ?_⟩
  · have f2 := (create_init_frame cfg slides₀).2.1
    constructor <;>
      · rw [f2]
        by_cases hg : autoplayGuard cfg = true
        · rw [if_pos hg]
          simp [show cfg.enableAutoplay = true from hg]
        · rw [if_neg hg]
          simp only [autoplayGuard] at hg
          simp [hg]
  · intro st t N
    induction N generalizing st with
    | zero =>
      intro ht hc
      simpa using (Nat.mod_eq_of_lt hc).symm
    | succ N ih =>
      intro ht hc
      rw [List.replicate_succ]
      show (run (step st (.tick t)) (List.replicate N (.tick t))).currentSlideIndex = _
      rw [htick st t ht]
      obtain ⟨hl, _, _, _, _, _, ha, _, _, _⟩ := moveSlide_frame st .next
      have ht' : t ∈ (moveSlide st .next).activeTimers := by
        rw [ha]
        exact ht
      have hc' : (moveSlide st .next).currentSlideIndex <
          (moveSlide st .next).slides.length := by
        rw [moveSlide_next_index, hl]
        exact nextIndex_lt _ _ (Nat.lt_of_le_of_lt (Nat.zero_le _) hc)
      rw [ih (moveSlide st .next) ht' hc', moveSlide_next_index, hl]
      unfold nextIndex
      rw [Nat.mod_add_mod, Nat.add_assoc, Nat.add_comm 1 N]
  · intro st t ht hmem
    have hstep : step st .mouseEnter = stopAutoplay st := by
      simp [step, hmem, handleMouseEnter]
    rw [hstep, stopAutoplay_some st t ht]
    have htm : t ∉ (st.activeTimers.filter (fun x => x ≠ t)) := by
      intro hmem'
      rw [List.mem_filter] at hmem'
      simp at hmem'
    show step _ (.tick t) = _
    simp [step, htm]
  · intro st hmem
    have hstep : step st .mouseLeave = startAutoplay st := by
      simp [step, hmem, handleMouseLeave]
    rw [hstep]
    have hin : st.nextTimerId ∈ (startAutoplay st).activeTimers := by
      show st.nextTimerId ∈ st.activeTimers ++ [st.nextTimerId]
      simp
    exact ⟨hin, htick _ _ hin⟩

theorem c8_autoplay_tick_semantics_witness :
    Handler.mouseEnter ∈ (create (initState cfgW slidesW)).carouselListeners ∧
    (run (create (initState cfgW slidesW))
      (List.replicate 4 (Event.tick 0))).currentSlideIndex = 1 ∧
    step (step (create (initState cfgW slidesW)) Event.mouseEnter) (Event.tick 0) =
      step (create (initState cfgW slidesW)) Event.mouseEnter := by
  have h := c8_autoplay_tick_semantics cfgW slidesW
  refine ⟨h.1.1.mpr rfl, ?_, ?_⟩
  · have h3 := h.2.2.1 (create (initState cfgW slidesW)) 0 4 (by decide) (by decide)
    rw [h3]
    decide
  · exact h.2.2.2.1 (create (initState cfgW slidesW)) 0 (by decide) (by decide)

/-- C10: on a second `create`, `startAutoplay` runs again while the first
interval is still active: the stored handle is overwritten with the new id
and the first interval is not cancelled; `destroy` then clears only the
stored (most recent) id, leaving the first interval active, and its ticks
still perform "next" transitions. -/
theorem c10_double_create_leaks_timer (cfg : Config) (slides₀ : List Slide)
    (ha : cfg.enableAutoplay = true) :
    (run (initState cfg slides₀) [Event.create]).autoplayTimer = some 0 ∧
    (run (initState cfg slides₀) [Event.create]).activeTimers = [0] ∧
    (run (initState cfg slides₀) [Event.create, Event.create]).autoplayTimer = some 1 ∧
    (run (initState cfg slides₀) [Event.create, Event.create]).activeTimers = [0, 1] ∧
    (run (initState cfg slides₀)
      [Event.create, Event.create, Event.destroy]).activeTimers = [0] ∧
    step (run (initState cfg slides₀) [Event.create, Event.create, Event.destroy])
      (.tick 0) =
      moveSlide
        (run (initState cfg slides₀) [Event.create, Event.create, Event.destroy])
        .next := by
  have hg : autoplayGuard cfg = true := ha
  have hs1 : run (initState cfg slides₀) [Event.create] =
      create (initState cfg slides₀) := rfl
  obtain ⟨t1a, t1b, t1c⟩ := create_timers (initState cfg slides₀) hg
  have hcfg1 : (create (initState cfg slides₀)).cfg = cfg := create_cfg _
  obtain ⟨t2a, t2b, t2c⟩ := create_timers (create (initState cfg slides₀))
    (by rw [hcfg1]; exact hg)
  have hs2 : run (initState cfg slides₀) [Event.create, Event.create] =
      create (create (initState cfg slides₀)) := rfl
  have h2timer : (create (create (initState cfg slides₀))).autoplayTimer = some 1 := by
    rw [t2a, t1c]
    rfl
  have h2active : (create (create (initState cfg slides₀))).activeTimers = [0, 1] := by
    rw [t2b, t1b, t1c]
    rfl
  have hcfg2 : (create (create (initState cfg slides₀))).cfg = cfg := by
    rw [create_cfg, hcfg1]
  have hs3 : run (initState cfg slides₀) [Event.create, Event.create, Event.destroy] =
      destroy (create (create (initState cfg slides₀))) := rfl
  obtain ⟨c1, c2, c3, c4, c5, c6, c7, c8, c9⟩ :=
    destroyCore_frame (create (create (initState cfg slides₀)))
  have h3active :
      (destroy (create (create (initState cfg slides₀)))).activeTimers = [0] := by
    rw [destroy_split, if_pos (by rw [hcfg2]; exact hg)]
    set W : State := { destroyCore (create (create (initState cfg slides₀))) with
      carouselListeners :=
        removeListener
          (removeListener
            (destroyCore (create (create (initState cfg slides₀)))).carouselListeners
            .mouseEnter) .mouseLeave } with hW
    have hWt : W.autoplayTimer = some 1 := c7.trans h2timer
    rw [stopAutoplay_some W 1 hWt]
    show (destroyCore (create (create (initState cfg slides₀)))).activeTimers.filter
      (fun x => x ≠ 1) = [0]
    rw [c8, h2active]
    rfl
  refine ⟨?_, ?_, ?_, ?_, ?_, ?_⟩
  · rw [hs1, t1a]
    rfl
  · rw [hs1, t1b]
    rfl
  · rw [hs2, h2timer]
  · rw [hs2, h2active]
  · rw [hs3, h3active]
  · have hmem : 0 ∈ (run (initState cfg slides₀)
        [Event.create, Event.create, Event.destroy]).activeTimers := by
      rw [hs3, h3active]
      simp
    simp [step, hmem]

theorem c10_double_create_leaks_timer_witness :
    (run (initState cfgW slidesW) [Event.create, Event.create]).activeTimers = [0, 1] ∧
    (run (initState cfgW slidesW)
      [Event.create, Event.create, Event.destroy]).activeTimers = [0] ∧
    (run (initState cfgW slidesW) [Event.create, Event.create]).autoplayTimer = some 1 := by
  have h := c10_double_create_leaks_timer cfgW slidesW rfl
  exact ⟨h.2.2.2.1, h.2.2.2.2.1, h.2.2.1⟩

theorem all_notCreate_of_transition (evs : List Event)
    (h : evs.all isTransitionEv = true) : evs.all notCreateEv = true := by
  rw [List.all_eq_true] at h ⊢
  intro e he
  have h2 := h e he
  cases e <;> simp_all [isTransitionEv, notCreateEv]

theorem TimerInv_run_exists (st : State) (evs : List Event) (inside : Bool)
    (hI : TimerInv inside st) (hhov : hoverOk inside evs = true)
    (hnc : evs.all notCreateEv = true) :
    ∃ inside', TimerInv inside' (run st evs) := by
  induction evs generalizing st inside with
  | nil => exact ⟨inside, hI⟩
  | cons e rest ih =>
    rw [List.all_cons, Bool.and_eq_true] at hnc
    obtain ⟨hEnter, hLeave, hhov'⟩ := hoverOk_cons inside e rest hhov
    have hne : e ≠ Event.create := by
      intro hcr
      rw [hcr] at hnc
      simp [notCreateEv] at hnc
    exact ih (step st e) (insideAfterEv inside e)
      (TimerInv_step st e inside hI hne hLeave) hhov' hnc.2

theorem run_timers_no_hover (st : State) (evs : List Event)
    (hevs : evs.all isTransitionEv = true)
    (hEnter : Handler.mouseEnter ∉ st.carouselListeners)
    (hLeave : Handler.mouseLeave ∉ st.carouselListeners) :
    (run st evs).activeTimers = st.activeTimers ∧
    (run st evs).autoplayTimer = st.autoplayTimer := by
  induction evs generalizing st with
  | nil => exact ⟨rfl, rfl⟩
  | cons e rest ih =>
    rw [List.all_cons, Bool.and_eq_true] at hevs
    have hw := (step_preserves_wiring st e hevs.1).2.2.2.1
    have ht : (step st e).autoplayTimer = st.autoplayTimer ∧
        (step st e).activeTimers = st.activeTimers := by
      by_cases he1 : e = Event.mouseEnter
      · subst he1
        have hstep : step st .mouseEnter = st := by simp [step, hEnter]
        rw [hstep]
        exact ⟨rfl, rfl⟩
      · by_cases he2 : e = Event.mouseLeave
        · subst he2
          have hstep : step st .mouseLeave = st := by simp [step, hLeave]
          rw [hstep]
          exact ⟨rfl, rfl⟩
        · exact ⟨(step_preserves_timers st e hevs.1 he1 he2).1,
            (step_preserves_timers st e hevs.1 he1 he2).2.1⟩
    obtain ⟨r1, r2⟩ := ih (step st e) hevs.2
      (by rw [hw]; exact hEnter) (by rw [hw]; exact hLeave)
    exact ⟨r1.trans ht.2, r2.trans ht.1⟩

/-- C6: after a single `create`, any sequence of state-transition events with
legally alternating hover, and a final `destroy`: no timer remains active
(the stored interval is cancelled even if autoplay was suspended by hover at
that moment), the previous/next/keyboard/hover listeners are detached, so
ticks, keydown, previous/next clicks and hover events no longer change the
state — with the single exception that `destroy`'s pagination removal uses
freshly constructed closures, hence every pagination button still holds its
original creation-time click closure and clicking button `k` still jumps the
index to `k`. -/
theorem c6_destroy_cleanup (cfg : Config) (slides₀ : List Slide) (mid : List Event)
    (h0 : slides₀ ≠ []) (hmid : mid.all isTransitionEv = true)
    (hhov : hoverOk false mid = true) :
    ∀ s : State, s = destroy (run (create (initState cfg slides₀)) mid) →
      s.activeTimers = [] ∧
      s.carouselListeners = [] ∧
      (s.prevBtn = none ∨ s.prevBtn = some []) ∧
      (s.nextBtn = none ∨ s.nextBtn = some []) ∧
      (∀ t, step s (.tick t) = s) ∧
      (∀ e, step s (.keydown e) = s) ∧
      step s .prevClick = s ∧
      step s .nextClick = s ∧
      step s .mouseEnter = s ∧
      step s .mouseLeave = s ∧
      (cfg.enablePagination = true →
        pagListeners s = some ((List.range slides₀.length).map
          (fun k => [Handler.paginationClick k k])) ∧
        ∀ k, k < slides₀.length →
          (step s (.paginationClick k)).currentSlideIndex = k) := by
  intro s hs
  have hInv : Inv cfg (run (create (initState cfg slides₀)) mid) :=
    Inv_run cfg _ mid (Inv_create cfg slides₀ h0) hmid
  obtain ⟨w1, w2, w3, w4, w5, w6, w7⟩ :=
    run_preserves_wiring (create (initState cfg slides₀)) mid hmid
  obtain ⟨f1, f2, f3, f4, f5, f6, f7, f8⟩ := create_init_frame cfg slides₀
  set m : State := run (create (initState cfg slides₀)) mid with hm
  have hmcfg : m.cfg = cfg := w1.trans f1
  have hmL : m.carouselListeners =
      (if autoplayGuard cfg then
        [Handler.keyboardNav, Handler.mouseEnter, Handler.mouseLeave]
       else [Handler.keyboardNav]) := w4.trans f2
  have hmP : m.prevBtn =
      (if cfg.enableNextPrevious then some [Handler.prevClick] else none) := w2.trans f3
  have hmN : m.nextBtn =
      (if cfg.enableNextPrevious then some [Handler.nextClick] else none) := w3.trans f4
  have hmn : m.slides.length = slides₀.length :=
    run_create_slides_length cfg slides₀ mid hmid
  have h1 : s.activeTimers = [] := by
    rw [hs]
    by_cases hg : autoplayGuard cfg = true
    · obtain ⟨ins, hti⟩ := TimerInv_run_exists (create (initState cfg slides₀)) mid false
        (TimerInv_create_init cfg slides₀) hhov (all_notCreate_of_transition mid hmid)
      exact destroy_activeTimers_nil m hti.2.2 (by rw [hmcfg]; exact hg)
    · have hgf : autoplayGuard m.cfg = false := by
        rw [hmcfg]
        revert hg
        cases autoplayGuard cfg <;> simp
      rw [destroy_activeTimers_no_autoplay m hgf]
      have henter : Handler.mouseEnter ∉ (create (initState cfg slides₀)).carouselListeners := by
        rw [f2, if_neg hg]
        simp
      have hleave : Handler.mouseLeave ∉ (create (initState cfg slides₀)).carouselListeners := by
        rw [f2, if_neg hg]
        simp
      have hrt := run_timers_no_hover (create (initState cfg slides₀)) mid hmid henter hleave
      show (run (create (initState cfg slides₀)) mid).activeTimers = []
      rw [hrt.1, f6, if_neg hg]
  have h2 : s.carouselListeners = [] := by
    rw [hs, destroy_carouselListeners]
    by_cases hg : autoplayGuard cfg = true
    · rw [if_pos (show autoplayGuard m.cfg = true by rw [hmcfg]; exact hg), hmL, if_pos hg]
      rfl
    · rw [if_neg (show ¬autoplayGuard m.cfg = true by rw [hmcfg]; exact hg), hmL, if_neg hg]
      rfl
  have h3 : s.prevBtn = none ∨ s.prevBtn = some [] := by
    rw [hs, (destroy_frame m).2.2.2.1, hmP]
    by_cases hnp : cfg.enableNextPrevious = true
    · right
      rw [if_pos hnp]
      rfl
    · left
      rw [if_neg hnp]
      rfl
  have h4 : s.nextBtn = none ∨ s.nextBtn = some [] := by
    rw [hs, (destroy_frame m).2.2.2.2, hmN]
    by_cases hnp : cfg.enableNextPrevious = true
    · right
      rw [if_pos hnp]
      rfl
    · left
      rw [if_neg hnp]
      rfl
  have h5 : ∀ t, step s (.tick t) = s := by
    intro t
    have hmem : t ∉ s.activeTimers := by
      rw [h1]
      simp
    simp [step, hmem]
  have h6 : ∀ e, step s (.keydown e) = s := by
    intro e
    have hmem : Handler.keyboardNav ∉ s.carouselListeners := by
      rw [h2]
      simp
    simp [step, hmem]
  have h7 : step s .prevClick = s := by
    rcases h3 with h | h <;> simp [step, h]
  have h8 : step s .nextClick = s := by
    rcases h4 with h | h <;> simp [step, h]
  have h9 : step s .mouseEnter = s := by
    have hmem : Handler.mouseEnter ∉ s.carouselListeners := by
      rw [h2]
      simp
    simp [step, hmem]
  have h10 : step s .mouseLeave = s := by
    have hmem : Handler.mouseLeave ∉ s.carouselListeners := by
      rw [h2]
      simp
    simp [step, hmem]
  refine ⟨h1, h2, h3, h4, h5, h6, h7, h8, h9, h10, ?_⟩
  intro hp
  obtain ⟨btns, hpc, hlen, hcid, hbtns⟩ := hInv.2.2.2.1 hp
  have hn : 0 < slides₀.length := List.length_pos.mpr h0
  have hlen' : btns.length = slides₀.length := by omega
  have hcid' : m.nextClosureId = slides₀.length := by omega
  have hdpc : (destroy m).paginationContainer =
      some (mapIdxFrom (fun i b =>
        { b with
          listeners :=
            removeListener b.listeners
              (Handler.paginationClick i (m.nextClosureId + i)) }) 0 btns) :=
    destroy_paginationContainer_of_pag m btns (by rw [hmcfg]; exact hp) hpc
  have hbL : ∀ (k : Nat) (hk : k < btns.length),
      removeListener btns[k].listeners
        (Handler.paginationClick k (m.nextClosureId + k)) =
        [Handler.paginationClick k k] := by
    intro k hk
    have hbk := hbtns k btns[k] (List.getElem?_eq_getElem hk)
    rw [hbk.1, hcid']
    have hne : (Handler.paginationClick k k) ≠
        (Handler.paginationClick k (slides₀.length + k)) := by
      intro hcontra
      rw [Handler.paginationClick.injEq] at hcontra
      omega
    unfold removeListener
    rw [List.filter_cons]
    simp [hne]
  have hApc : pagListeners s = some ((List.range slides₀.length).map
      (fun k => [Handler.paginationClick k k])) := by
    rw [hs]
    unfold pagListeners
    rw [hdpc, Option.map_some', Option.some.injEq]
    apply List.ext_getElem?
    intro k
    rw [List.getElem?_map, mapIdxFrom_getElem?, List.getElem?_map, Option.map_map]
    by_cases hk : k < slides₀.length
    · have hkb : k < btns.length := by omega
      rw [List.getElem?_eq_getElem hkb, List.getElem?_range hk]
      show some _ = some _
      rw [Option.some.injEq]
      show removeListener btns[k].listeners
        (Handler.paginationClick (0 + k) (m.nextClosureId + (0 + k))) =
          [Handler.paginationClick k k]
      rw [Nat.zero_add]
      exact hbL k hkb
    · have hkb : ¬k < btns.length := by omega
      rw [List.getElem?_eq_none (Nat.le_of_not_lt hkb),
        List.getElem?_eq_none (by simpa using Nat.le_of_not_lt hk)]
      rfl
  refine ⟨hApc, ?_⟩
  intro k hk
  have hkb : k < btns.length := by omega
  have hspc : s.paginationContainer =
      some (mapIdxFrom (fun i b =>
        { b with
          listeners :=
            removeListener b.listeners
              (Handler.paginationClick i (m.nextClosureId + i)) }) 0 btns) := by
    rw [hs]
    exact hdpc
  have hbk' : (mapIdxFrom (fun i b =>
      { b with
        listeners :=
          removeListener b.listeners
            (Handler.paginationClick i (m.nextClosureId + i)) }) 0 btns)[k]? =
      some { btns[k] with listeners := [Handler.paginationClick k k] } := by
    rw [mapIdxFrom_getElem?, List.getElem?_eq_getElem hkb]
    show some _ = some _
    rw [Option.some.injEq]
    show ({ btns[k] with
      listeners :=
        removeListener btns[k].listeners
          (Handler.paginationClick (0 + k) (m.nextClosureId + (0 + k))) } :
        PaginationBtn) = _
    rw [Nat.zero_add, hbL k hkb]
  have hstep : step s (.paginationClick k) = handlePaginationBtnClick s k := by
    simp [step, hspc, hbk', fireOn]
  rw [hstep, handlePaginationBtnClick_index]

theorem c6_destroy_cleanup_witness :
    (destroy (run (create (initState cfgW slidesW)) [Event.nextClick])).activeTimers = [] ∧
    (destroy (run (create (initState cfgW slidesW))
      [Event.nextClick])).carouselListeners = [] ∧
    step (destroy (run (create (initState cfgW slidesW)) [Event.nextClick]))
      (Event.tick 0) =
      destroy (run (create (initState cfgW slidesW)) [Event.nextClick]) ∧
    step (destroy (run (create (initState cfgW slidesW)) [Event.nextClick]))
      Event.prevClick =
      destroy (run (create (initState cfgW slidesW)) [Event.nextClick]) ∧
    (step (destroy (run (create (initState cfgW slidesW)) [Event.nextClick]))
      (Event.paginationClick 2)).currentSlideIndex = 2 := by
  have h := c6_destroy_cleanup cfgW slidesW [Event.nextClick] (by decide) (by decide)
    (by decide) (destroy (run (create (initState cfgW slidesW)) [Event.nextClick])) rfl
  exact ⟨h.1, h.2.1, h.2.2.2.2.1 0, h.2.2.2.2.2.2.1,
    (h.2.2.2.2.2.2.2.2.2.2 rfl).2 2 (by decide)⟩

end Carousel
